import Mathlib

/-!
# Verification of the libavoid C wrapper handle registry

Shallow embedding of src/routing/libavoid_c_wrapper.cpp, the C calling
interface around the external libavoid routing engine.  The wrapper keeps
two process-wide "std::map"s keyed by the raw router pointer
(g_shapes : router -> (shape id -> ShapeRef*),
 g_connectors : router -> (connector id -> ConnRef*)) together with two
process-wide unsigned-int id counters (g_next_shape_id,
g_next_connector_id, both starting at 1).

Modelling decisions:
* Raw pointers are natural numbers; 0 is the null pointer.  Allocation
  (operator new) hands out fresh nonzero addresses from a counter
  (nextPtr); successful allocation never returns null.
* std::map is an association list with unique keys; map lookup, insert
  (operator[] assignment) and erase are the usual first-occurrence
  association-list operations.  States produced by the real program
  always have duplicate-free key lists, which theorems assume where it
  matters.
* The native heap is explicit: live Avoid::ShapeRef / Avoid::ConnRef /
  Avoid::Router objects are association lists keyed by their address.
  Dereferencing an address that is not live (a dangling or foreign
  pointer) is undefined behavior; every entry point therefore returns
  Option, with none meaning the call ran into undefined behavior.
* Coordinates are C doubles that the wrapper only copies, never
  computes with; they are modelled by an arbitrary type with decidable
  equality, here Int.
* The unsigned int id counters wrap modulo 2^32.
-/

/-- A raw machine pointer; 0 is the C null pointer. -/
abbrev Ptr := Nat

/-- Mirrors the C struct AvoidPoint { double x; double y; }. -/
structure AvoidPoint where
  x : Int
  y : Int
deriving DecidableEq, Repr

/-- Mirrors the C struct AvoidRectangle { double min_x, min_y, max_x, max_y; }. -/
structure AvoidRectangle where
  min_x : Int
  min_y : Int
  max_x : Int
  max_y : Int
deriving DecidableEq, Repr

/-- A native Avoid::ShapeRef: constructed bound to a router with a
rectangle (libavoid_c_wrapper.cpp line 42). -/
structure ShapeObj where
  router : Ptr
  rect : AvoidRectangle
deriving DecidableEq, Repr

/-- A native Avoid::ConnRef: constructed bound to a router, given two
endpoints via setEndpoints, and carrying its current display route
(empty until the router processes a transaction). -/
structure ConnObj where
  router : Ptr
  srcEnd : AvoidPoint
  dstEnd : AvoidPoint
  route : List AvoidPoint
deriving DecidableEq, Repr

/-- A native Avoid::Router instance: its construction flags and the
shapes/connectors currently registered to it (libavoid objects register
themselves with their router on construction and unregister on
destruction). -/
structure Engine where
  flags : Nat
  boundShapes : List Ptr
  boundConns : List Ptr
deriving DecidableEq, Repr

/-- First-occurrence lookup in an association list, the model of
std::map::find. -/
def afind? {α : Type} (m : List (Nat × α)) (k : Nat) : Option α :=
  match m with
  | [] => none
  | (k', v) :: rest => if k = k' then some v else afind? rest k

/-- Insert-or-replace, the model of std::map operator[] assignment. -/
def aset {α : Type} (m : List (Nat × α)) (k : Nat) (v : α) : List (Nat × α) :=
  match m with
  | [] => [(k, v)]
  | (k', v') :: rest => if k = k' then (k', v) :: rest else (k', v') :: aset rest k v

/-- Remove the entry with the given key, the model of std::map::erase. -/
def aerase {α : Type} (m : List (Nat × α)) (k : Nat) : List (Nat × α) :=
  match m with
  | [] => []
  | (k', v') :: rest => if k = k' then rest else (k', v') :: aerase rest k

/-- The keys of an association list have no duplicates; true of every
std::map, which stores at most one entry per key. -/
def keysNodup {α : Type} (m : List (Nat × α)) : Prop :=
  (m.map Prod.fst).Nodup

instance {α : Type} (m : List (Nat × α)) : Decidable (keysNodup m) := by
  unfold keysNodup; infer_instance

/-- The process-wide mutable state of the wrapper translation unit: the
two tracking maps and the two id counters of libavoid_c_wrapper.cpp
lines 7-10, plus the native heap (live routers, shapes, connectors) and
the allocator's fresh-address source. -/
structure WState where
  g_shapes : List (Ptr × List (Nat × Ptr))
  g_connectors : List (Ptr × List (Nat × Ptr))
  g_next_shape_id : Nat
  g_next_connector_id : Nat
  engines : List (Ptr × Engine)
  shapeHeap : List (Ptr × ShapeObj)
  connHeap : List (Ptr × ConnObj)
  nextPtr : Ptr
deriving DecidableEq, Repr

/-- Process start: empty maps, both counters 1 (lines 9-10), empty heap,
first allocatable address 1. -/
def initState : WState :=
  { g_shapes := [], g_connectors := [], g_next_shape_id := 1,
    g_next_connector_id := 1, engines := [], shapeHeap := [], connHeap := [],
    nextPtr := 1 }

/-- The modulus of the unsigned int id counters. -/
def UINT_MOD : Nat := 4294967296

/-- avoid_router_new (lines 14-17): allocates a new Avoid::Router with
the given flags and returns its address as the opaque router handle. -/
def avoid_router_new (st : WState) (flags : Nat) : Ptr × WState :=
  let p := st.nextPtr
  let e : Engine := { flags := flags, boundShapes := [], boundConns := [] }
  (p, { st with engines := aset st.engines p e, nextPtr := p + 1 })

/-- Events observable during avoid_router_delete, recording the order in
which the call tears things down. -/
inductive DEvent where
  | eraseShapesEntry (router : Ptr)
  | eraseConnsEntry (router : Ptr)
  | releaseConn (p : Ptr)
  | releaseShape (p : Ptr)
  | releaseEngine (router : Ptr)
deriving DecidableEq, Repr

/-- avoid_router_delete (lines 19-28): early-returns on null, then
erases the router's entries from both tracking maps, then runs
delete on the router pointer.  Deleting a pointer that is not a live
router (already freed, or never allocated) is undefined behavior
(none).

Modelled from the spec: the destructor of the external engine
(Avoid::Router::~Router, not part of this repository's sources) releases
every connector and every shape still registered to the router before
the engine instance's own storage is freed, "since native
Obstacle/Connector objects typically hold back-references to the engine
and must not outlive it". -/
def avoid_router_delete (st : WState) (router : Ptr) :
    Option (WState × List DEvent) :=
  if router = 0 then some (st, []) else
  match afind? st.engines router with
  | none => none
  | some e =>
    some ({ st with
        g_shapes := aerase st.g_shapes router,
        g_connectors := aerase st.g_connectors router,
        connHeap := e.boundConns.foldl (fun h p => aerase h p) st.connHeap,
        shapeHeap := e.boundShapes.foldl (fun h p => aerase h p) st.shapeHeap,
        engines := aerase st.engines router },
      [DEvent.eraseShapesEntry router, DEvent.eraseConnsEntry router]
        ++ e.boundConns.map DEvent.releaseConn
        ++ e.boundShapes.map DEvent.releaseShape
        ++ [DEvent.releaseEngine router])

/-- avoid_router_add_shape (lines 30-49): null router returns sentinel
0; otherwise dereferences the router (undefined behavior unless it is a
live engine), constructs a ShapeRef bound to it, issues the next shape
id (unsigned increment), records g_shapes[router][id] = shape and
returns the id. -/
def avoid_router_add_shape (st : WState) (router : Ptr)
    (rect : AvoidRectangle) : Option (Nat × WState) :=
  if router = 0 then some (0, st) else
  match afind? st.engines router with
  | none => none
  | some e =>
    let p := st.nextPtr
    let id := st.g_next_shape_id
    let inner := (afind? st.g_shapes router).getD []
    some (id, { st with
      shapeHeap := aset st.shapeHeap p { router := router, rect := rect },
      engines := aset st.engines router { e with boundShapes := e.boundShapes ++ [p] },
      g_next_shape_id := (id + 1) % UINT_MOD,
      g_shapes := aset st.g_shapes router (aset inner id p),
      nextPtr := p + 1 })

/-- avoid_router_delete_shape (lines 51-62): null router or a lookup
miss at either map level is a no-op.  On a hit, delete shape_it->second
runs the ShapeRef destructor, which dereferences the shape and
unregisters it from its owning router (undefined behavior if either
pointer is dead), then the tracking entry is erased. -/
def avoid_router_delete_shape (st : WState) (router : Ptr)
    (shape_id : Nat) : Option WState :=
  if router = 0 then some st else
  match afind? st.g_shapes router with
  | none => some st
  | some inner =>
    match afind? inner shape_id with
    | none => some st
    | some p =>
      match afind? st.shapeHeap p with
      | none => none
      | some obj =>
        match afind? st.engines obj.router with
        | none => none
        | some e =>
          some { st with
            shapeHeap := aerase st.shapeHeap p,
            engines := aset st.engines obj.router
              { e with boundShapes := e.boundShapes.filter (fun q => q ≠ p) },
            g_shapes := aset st.g_shapes router (aerase inner shape_id) }

/-- avoid_router_add_connector (lines 64-82): null router returns
sentinel 0; otherwise dereferences the router (undefined behavior
unless live), constructs a ConnRef bound to it, sets the two endpoints,
issues the next connector id and records the tracking entry. -/
def avoid_router_add_connector (st : WState) (router : Ptr)
    (start : AvoidPoint) (stop : AvoidPoint) : Option (Nat × WState) :=
  if router = 0 then some (0, st) else
  match afind? st.engines router with
  | none => none
  | some e =>
    let p := st.nextPtr
    let id := st.g_next_connector_id
    let inner := (afind? st.g_connectors router).getD []
    some (id, { st with
      connHeap := aset st.connHeap p
        { router := router, srcEnd := start, dstEnd := stop, route := [] },
      engines := aset st.engines router { e with boundConns := e.boundConns ++ [p] },
      g_next_connector_id := (id + 1) % UINT_MOD,
      g_connectors := aset st.g_connectors router (aset inner id p),
      nextPtr := p + 1 })

/-- avoid_router_delete_connector (lines 84-95): symmetric to
avoid_router_delete_shape. -/
def avoid_router_delete_connector (st : WState) (router : Ptr)
    (conn_id : Nat) : Option WState :=
  if router = 0 then some st else
  match afind? st.g_connectors router with
  | none => some st
  | some inner =>
    match afind? inner conn_id with
    | none => some st
    | some p =>
      match afind? st.connHeap p with
      | none => none
      | some obj =>
        match afind? st.engines obj.router with
        | none => none
        | some e =>
          some { st with
            connHeap := aerase st.connHeap p,
            engines := aset st.engines obj.router
              { e with boundConns := e.boundConns.filter (fun q => q ≠ p) },
            g_connectors := aset st.g_connectors router (aerase inner conn_id) }

/-- avoid_router_process_transaction (lines 97-102): null router is a
no-op; otherwise dereferences the router (undefined behavior unless
live) and has the engine recompute the route of every connector
registered to it.  The routing algorithm itself lives in the external
engine and is represented by an uninterpreted oracle from the
connector's endpoints to a polyline. -/
def avoid_router_process_transaction
    (oracle : AvoidPoint → AvoidPoint → List AvoidPoint)
    (st : WState) (router : Ptr) : Option WState :=
  if router = 0 then some st else
  match afind? st.engines router with
  | none => none
  | some e =>
    some { st with connHeap := st.connHeap.map (fun pc =>
      if pc.1 ∈ e.boundConns then
        (pc.1, { pc.2 with route := oracle pc.2.srcEnd pc.2.dstEnd })
      else pc) }

/-- The caller's AvoidPoint* variable: null or a buffer holding a list
of points. -/
abbrev Cell := Option (List AvoidPoint)

/-- The point-copying loop of avoid_router_get_route_points lines
119-125: element i of the fresh buffer receives route.at(i). -/
def copy_route_points (route : List AvoidPoint) : List AvoidPoint :=
  (List.range route.length).map (fun i => route.getD i { x := 0, y := 0 })

/-- The narrowing static_cast from the size type to a 32-bit
two's-complement signed int on line 127: the value is reduced modulo
2^32 and values at or above 2^31 come out negative. -/
def intCast32 (n : Nat) : Int :=
  if n % 4294967296 < 2147483648 then ((n % 4294967296 : Nat) : Int)
  else ((n % 4294967296 : Nat) : Int) - 4294967296

/-- avoid_router_get_route_points (lines 104-128): returns 0 without
touching anything when the router handle or the points out-parameter is
null, or when either tracking-map lookup misses, or when the
connector's display route is empty; in those cases nothing is written
through the points pointer.  On a non-empty route it allocates a fresh
buffer, copies the route points into it in order, writes the buffer
through the points pointer and returns static_cast of the point count
to a 32-bit signed int.  The result is (count, contents of the
caller's points variable, state); none is the undefined behavior of
dereferencing a dead connector pointer. -/
def avoid_router_get_route_points (st : WState) (router : Ptr)
    (conn_id : Nat) (points : Option Cell) :
    Option (Int × Option Cell × WState) :=
  if router = 0 ∨ points = none then some (0, points, st) else
  match afind? st.g_connectors router with
  | none => some (0, points, st)
  | some inner =>
    match afind? inner conn_id with
    | none => some (0, points, st)
    | some p =>
      match afind? st.connHeap p with
      | none => none
      | some conn =>
        if conn.route.length = 0 then some (0, points, st)
        else some (intCast32 conn.route.length,
          some (some (copy_route_points conn.route)), st)

/-- The obstacle sub-registry of a router: the inner map of g_shapes
consulted by avoid_router_delete_shape (an absent router entry behaves
as the empty map, since both lookups then miss). -/
def innerShapes (st : WState) (h : Ptr) : List (Nat × Ptr) :=
  (afind? st.g_shapes h).getD []

/-- The connector sub-registry of a router. -/
def innerConns (st : WState) (h : Ptr) : List (Nat × Ptr) :=
  (afind? st.g_connectors h).getD []

/-- An obstacle handle resolves under a router exactly when the
two-level lookup of avoid_router_delete_shape finds an entry. -/
def shapeResolvable (st : WState) (h : Ptr) (id : Nat) : Bool :=
  (afind? (innerShapes st h) id).isSome

/-- A connector handle resolves under a router exactly when the
two-level lookup of avoid_router_delete_connector /
avoid_router_get_route_points finds an entry. -/
def connResolvable (st : WState) (h : Ptr) (id : Nat) : Bool :=
  (afind? (innerConns st h) id).isSome

/-! ## Whole-interface call traces

A Call is one invocation of an entry point of the wrapper; run executes
a list of calls from a state, aborting with none as soon as any call
runs into undefined behavior. -/

/-- One invocation of a wrapper entry point with its arguments. -/
inductive Call where
  | newRouter (flags : Nat)
  | delRouter (router : Ptr)
  | addShape (router : Ptr) (rect : AvoidRectangle)
  | delShape (router : Ptr) (id : Nat)
  | addConn (router : Ptr) (start stop : AvoidPoint)
  | delConn (router : Ptr) (id : Nat)
  | processTx (router : Ptr)
  | query (router : Ptr) (id : Nat) (points : Option Cell)
deriving DecidableEq, Repr

/-- The value an entry point hands back to the caller. -/
inductive Ret where
  | rptr (p : Ptr)
  | rid (n : Nat)
  | runit
  | rquery (n : Int) (points : Option Cell)
deriving DecidableEq, Repr

/-- Execute one call. -/
def step (oracle : AvoidPoint → AvoidPoint → List AvoidPoint)
    (st : WState) : Call → Option (WState × Ret)
  | Call.newRouter f =>
    let r := avoid_router_new st f
    some (r.2, Ret.rptr r.1)
  | Call.delRouter h =>
    (avoid_router_delete st h).map (fun x => (x.1, Ret.runit))
  | Call.addShape h rect =>
    (avoid_router_add_shape st h rect).map (fun x => (x.2, Ret.rid x.1))
  | Call.delShape h id =>
    (avoid_router_delete_shape st h id).map (fun s => (s, Ret.runit))
  | Call.addConn h a b =>
    (avoid_router_add_connector st h a b).map (fun x => (x.2, Ret.rid x.1))
  | Call.delConn h id =>
    (avoid_router_delete_connector st h id).map (fun s => (s, Ret.runit))
  | Call.processTx h =>
    (avoid_router_process_transaction oracle st h).map (fun s => (s, Ret.runit))
  | Call.query h id pts =>
    (avoid_router_get_route_points st h id pts).map
      (fun x => (x.2.2, Ret.rquery x.1 x.2.1))

/-- Execute a list of calls, collecting the returned values. -/
def run (oracle : AvoidPoint → AvoidPoint → List AvoidPoint)
    (st : WState) : List Call → Option (WState × List Ret)
  | [] => some (st, [])
  | c :: cs =>
    match step oracle st c with
    | none => none
    | some (st1, r) =>
      match run oracle st1 cs with
      | none => none
      | some (st2, rs) => some (st2, r :: rs)

/-- An addShape call on a non-null router, the only calls that make
the wrapper issue a shape id. -/
def isIssuingShapeAdd : Call → Bool
  | Call.addShape r _ => decide (r ≠ 0)
  | _ => false

/-- An addConn call on a non-null router. -/
def isIssuingConnAdd : Call → Bool
  | Call.addConn r _ _ => decide (r ≠ 0)
  | _ => false

/-- Number of shape ids a call list makes the wrapper issue. -/
def countShapeAdds (cs : List Call) : Nat := (cs.filter isIssuingShapeAdd).length

/-- Number of connector ids a call list makes the wrapper issue. -/
def countConnAdds (cs : List Call) : Nat := (cs.filter isIssuingConnAdd).length

/-- The shape handles returned to the caller by the addShape calls of a
run, in call order. -/
def shapeIdsOf : List Call → List Ret → List Nat
  | [], _ => []
  | _ :: _, [] => []
  | c :: cs, r :: rs =>
    match c, r with
    | Call.addShape h _, Ret.rid n =>
      if h = 0 then shapeIdsOf cs rs else n :: shapeIdsOf cs rs
    | _, _ => shapeIdsOf cs rs

/-- The connector handles returned to the caller by the addConn calls
of a run, in call order. -/
def connIdsOf : List Call → List Ret → List Nat
  | [], _ => []
  | _ :: _, [] => []
  | c :: cs, r :: rs =>
    match c, r with
    | Call.addConn h _ _, Ret.rid n =>
      if h = 0 then connIdsOf cs rs else n :: connIdsOf cs rs
    | _, _ => connIdsOf cs rs

/-! ## Single-router add/delete sequences with their issue/delete log -/

/-- An add/delete operation addressed to one fixed router. -/
inductive ROp where
  | addS (rect : AvoidRectangle)
  | delS (id : Nat)
  | addC (start stop : AvoidPoint)
  | delC (id : Nat)
deriving DecidableEq, Repr

/-- Execute one add/delete operation against router h. -/
def rstep (st : WState) (h : Ptr) : ROp → Option WState
  | ROp.addS rect => (avoid_router_add_shape st h rect).map Prod.snd
  | ROp.delS id => avoid_router_delete_shape st h id
  | ROp.addC a b => (avoid_router_add_connector st h a b).map Prod.snd
  | ROp.delC id => avoid_router_delete_connector st h id

/-- The handles a sequence of add/delete operations issued (returned by
adds) and effectively deleted (delete calls that found an entry). -/
structure OpLog where
  addedS : List Nat
  removedS : List Nat
  addedC : List Nat
  removedC : List Nat
deriving DecidableEq, Repr

/-- The empty log. -/
def emptyLog : OpLog := { addedS := [], removedS := [], addedC := [], removedC := [] }

/-- Execute a sequence of add/delete operations against router h,
collecting which handles the adds returned and which handles the
deletes found and removed. -/
def rrunLog (st : WState) (h : Ptr) : List ROp → Option (WState × OpLog)
  | [] => some (st, emptyLog)
  | op :: ops =>
    match rstep st h op with
    | none => none
    | some st1 =>
      match rrunLog st1 h ops with
      | none => none
      | some (st2, log) =>
        some (st2,
          match op with
          | ROp.addS _ => { log with addedS := st.g_next_shape_id :: log.addedS }
          | ROp.delS id =>
            if shapeResolvable st h id then
              { log with removedS := id :: log.removedS }
            else log
          | ROp.addC _ _ =>
            { log with addedC := st.g_next_connector_id :: log.addedC }
          | ROp.delC id =>
            if connResolvable st h id then
              { log with removedC := id :: log.removedC }
            else log)

/-- Number of addS operations in a sequence. -/
def countAddS (ops : List ROp) : Nat :=
  (ops.filter (fun op => match op with | ROp.addS _ => true | _ => false)).length

/-- Number of addC operations in a sequence. -/
def countAddC (ops : List ROp) : Nat :=
  (ops.filter (fun op => match op with | ROp.addC _ _ => true | _ => false)).length

/-! ## Concrete scenario states used by witnesses and counterexamples -/

/-- A routing oracle standing in for libavoid's algorithm: route every
connector straight from its source to its destination. -/
def oracle0 : AvoidPoint → AvoidPoint → List AvoidPoint := fun a b => [a, b]

/-- The rectangle of the spec's example scenario. -/
def rect0 : AvoidRectangle := { min_x := 0, min_y := 0, max_x := 10, max_y := 10 }

/-- Example connector source. -/
def ptA : AvoidPoint := { x := -5, y := 5 }

/-- Example connector destination. -/
def ptB : AvoidPoint := { x := 15, y := 5 }

/-- State after creating one router (handle 1). -/
def stAfterNew : WState := (avoid_router_new initState 0).2

/-- State after creating router 1 and destroying it again: handle 1 is
now stale. -/
def stDestroyed : WState :=
  ((avoid_router_delete stAfterNew 1).map Prod.fst).getD initState

/-- Create a router, add one obstacle and one connector, compute
routes. -/
def csDemo : List Call :=
  [Call.newRouter 0, Call.addShape 1 rect0, Call.addConn 1 ptA ptB,
   Call.processTx 1]

/-- The demo state: router handle 1 with obstacle handle 1 (native
address 2) and connector handle 1 (native address 3) whose computed
route is the two-point polyline ptA-ptB. -/
def stDemo : WState :=
  ((run oracle0 initState csDemo).map Prod.fst).getD initState

/-- The native connector of the demo state (address 3), after its route
was computed by the straight-line oracle. -/
def connDemo : ConnObj :=
  { router := 1, srcEnd := ptA, dstEnd := ptB, route := [ptA, ptB] }

/-- Two live routers (handles 1 and 2); an obstacle and a connector
are registered under router 1 only. -/
def csTwo : List Call :=
  [Call.newRouter 0, Call.newRouter 0, Call.addShape 1 rect0,
   Call.addConn 1 ptA ptB]

/-- The two-router state used for the cross-router isolation claim. -/
def stTwo : WState :=
  ((run oracle0 initState csTwo).map Prod.fst).getD initState

/-- A call sequence exercising issuance across deletion and router
destruction: its addShape calls return 1, 2, 3. -/
def cs4 : List Call :=
  [Call.newRouter 0, Call.addShape 1 rect0, Call.addShape 1 rect0,
   Call.delShape 1 1, Call.delRouter 1, Call.newRouter 0,
   Call.addShape 4 rect0, Call.addConn 4 ptA ptB]

/-- The returns of cs4. -/
def rs4 : List Ret :=
  [Ret.rptr 1, Ret.rid 1, Ret.rid 2, Ret.runit, Ret.runit, Ret.rptr 4,
   Ret.rid 3, Ret.rid 1]

/-- Final state of the cs4 run. -/
def stC4 : WState := ((run oracle0 initState cs4).map Prod.fst).getD initState

/-- A point at the origin. -/
def ptZ : AvoidPoint := { x := 0, y := 0 }

/-- A connector whose computed route has 2^31 points: a size that does
not fit in a 32-bit signed int. -/
def connBig : ConnObj :=
  { router := 1, srcEnd := ptZ, dstEnd := ptZ,
    route := List.replicate 2147483648 ptZ }

/-- A state in which router 1 tracks connBig as connector handle 1
(native address 2). -/
def stBig : WState :=
  { g_shapes := [(1, [])], g_connectors := [(1, [(1, 2)])],
    g_next_shape_id := 1, g_next_connector_id := 2,
    engines := [(1, { flags := 0, boundShapes := [], boundConns := [2] })],
    shapeHeap := [], connHeap := [(2, connBig)], nextPtr := 3 }

/-- A small rectangle for the wrap-around scenario. -/
def rectW : AvoidRectangle := { min_x := 0, min_y := 0, max_x := 1, max_y := 1 }

/-- A well-formed registry state late in a process lifetime: the shape
id counter is about to wrap the unsigned int range, and shape handle 5
(issued long ago) is still registered under router 1. -/
def stWrap : WState :=
  { g_shapes := [(1, [(5, 2)])], g_connectors := [(1, [])],
    g_next_shape_id := 4294967295, g_next_connector_id := 1,
    engines := [(1, { flags := 0, boundShapes := [2], boundConns := [] })],
    shapeHeap := [(2, { router := 1, rect := rectW })], connHeap := [],
    nextPtr := 3 }

/-- Delete shape 5, then add seven shapes: the unsigned counter wraps
past 0 and the final add returns handle 5 again. -/
def opsWrap : List ROp :=
  [ROp.delS 5, ROp.addS rectW, ROp.addS rectW, ROp.addS rectW, ROp.addS rectW,
   ROp.addS rectW, ROp.addS rectW, ROp.addS rectW]

/-- A short add/delete sequence on the demo router for the registry
set-equation witness. -/
def ops5 : List ROp := [ROp.addS rect0, ROp.delS 1, ROp.delC 7, ROp.addC ptA ptB]

/-- Result of the wrap-around run. -/
def resWrap : WState × OpLog :=
  (rrunLog stWrap 1 opsWrap).getD (initState, emptyLog)

/-- Result of running ops5 on the demo state. -/
def res5 : WState × OpLog := (rrunLog stDemo 1 ops5).getD (initState, emptyLog)

/-- Post-state of ops5. -/
def st5 : WState := res5.1

/-- Log of ops5. -/
def log5 : OpLog := res5.2

/-- The demo router's engine. -/
def engDemo : Engine := { flags := 0, boundShapes := [2], boundConns := [3] }

/-- Result of destroying the demo router. -/
def resDestroyDemo : WState × List DEvent :=
  (avoid_router_delete stDemo 1).getD (initState, [])

/-- State after destroying the demo router. -/
def stDemoGone : WState := resDestroyDemo.1

/-- Teardown event trace of destroying the demo router. -/
def trDemo : List DEvent := resDestroyDemo.2

/-- The demo state after deleting obstacle 1 once. -/
def stDelS : WState := (avoid_router_delete_shape stDemo 1 1).getD initState

/-- The demo state after deleting connector 1 once. -/
def stDelC : WState := (avoid_router_delete_connector stDemo 1 1).getD initState

/-! ## Association-list lemmas -/

theorem afind?_aset {α : Type} (m : List (Nat × α)) (k : Nat) (v : α) (k' : Nat) :
    afind? (aset m k v) k' = if k' = k then some v else afind? m k' := by
  induction m with
  | nil => simp [aset, afind?]
  | cons hd tl ih =>
    obtain ⟨a, b⟩ := hd
    by_cases hka : k = a
    · subst hka
      simp [aset, afind?]
      by_cases hk' : k' = k <;> simp [hk', afind?]
    · simp [aset, hka, afind?]
      by_cases hk'a : k' = a
      · subst hk'a
        simp [afind?, Ne.symm hka]
      · simp [afind?, hk'a, ih]

theorem afind?_eq_none_of_not_mem_keys {α : Type} {m : List (Nat × α)} {k : Nat}
    (h : k ∉ m.map Prod.fst) : afind? m k = none := by
  induction m with
  | nil => rfl
  | cons hd tl ih =>
    obtain ⟨a, b⟩ := hd
    simp only [List.map_cons, List.mem_cons, not_or] at h
    simp [afind?, h.1, ih h.2]

theorem afind?_aerase_self {α : Type} {m : List (Nat × α)} (h : keysNodup m)
    (k : Nat) : afind? (aerase m k) k = none := by
  induction m with
  | nil => rfl
  | cons hd tl ih =>
    obtain ⟨a, b⟩ := hd
    unfold keysNodup at h
    simp [List.nodup_cons] at h
    by_cases hka : k = a
    · subst hka
      simp [aerase]
      exact afind?_eq_none_of_not_mem_keys (by simpa using h.1)
    · simp [aerase, hka, afind?, ih h.2]

theorem afind?_aerase_ne {α : Type} (m : List (Nat × α)) {k k' : Nat}
    (h : k' ≠ k) : afind? (aerase m k) k' = afind? m k' := by
  induction m with
  | nil => rfl
  | cons hd tl ih =>
    obtain ⟨a, b⟩ := hd
    by_cases hka : k = a
    · subst hka
      simp [aerase, afind?, h]
    · simp [aerase, hka, afind?]
      by_cases hk'a : k' = a <;> simp [hk'a, ih]

theorem afind?_aerase_none {α : Type} {m : List (Nat × α)} {k' : Nat}
    (h : afind? m k' = none) (k : Nat) : afind? (aerase m k) k' = none := by
  by_cases hk : k' = k
  · subst hk
    induction m with
    | nil => rfl
    | cons hd tl ih =>
      obtain ⟨a, b⟩ := hd
      by_cases hka : k' = a
      · subst hka; simp [afind?] at h
      · simp [afind?, hka] at h
        simp [aerase, Ne.symm hka, afind?, hka, ih h]
  · rw [afind?_aerase_ne m hk]; exact h

theorem mem_keys_of_mem_keys_aset {α : Type} {m : List (Nat × α)} {k k' : Nat}
    {v : α} (h : k' ∈ (aset m k v).map Prod.fst) :
    k' = k ∨ k' ∈ m.map Prod.fst := by
  induction m with
  | nil =>
    simp only [aset, List.map_cons, List.map_nil, List.mem_cons] at h
    simpa using h
  | cons hd tl ih =>
    obtain ⟨a, b⟩ := hd
    by_cases hka : k = a
    · subst hka
      simp only [aset, eq_self_iff_true, if_true, List.map_cons, List.mem_cons] at h
      simp only [List.map_cons, List.mem_cons]
      tauto
    · simp only [aset, if_neg hka, List.map_cons, List.mem_cons] at h
      simp only [List.map_cons, List.mem_cons]
      rcases h with h | h
      · tauto
      · rcases ih h with h | h <;> tauto

theorem keysNodup_aset {α : Type} {m : List (Nat × α)} (h : keysNodup m)
    (k : Nat) (v : α) : keysNodup (aset m k v) := by
  induction m with
  | nil => simp [aset, keysNodup]
  | cons hd tl ih =>
    obtain ⟨a, b⟩ := hd
    unfold keysNodup at h ⊢
    simp only [List.map_cons, List.nodup_cons] at h
    by_cases hka : k = a
    · subst hka
      simp only [aset, eq_self_iff_true, if_true, List.map_cons, List.nodup_cons]
      exact h
    · simp only [aset, if_neg hka, List.map_cons, List.nodup_cons]
      refine ⟨fun hmem => ?_, ih h.2⟩
      rcases mem_keys_of_mem_keys_aset hmem with h' | h'
      · exact hka h'.symm
      · exact h.1 h'

theorem aerase_sublist {α : Type} (m : List (Nat × α)) (k : Nat) :
    (aerase m k).Sublist m := by
  induction m with
  | nil => simp [aerase]
  | cons hd tl ih =>
    obtain ⟨a, b⟩ := hd
    by_cases hka : k = a
    · simp [aerase, hka]
    · simp only [aerase, if_neg hka]
      exact ih.cons₂ _

theorem keysNodup_aerase {α : Type} {m : List (Nat × α)} (h : keysNodup m)
    (k : Nat) : keysNodup (aerase m k) := by
  unfold keysNodup at h ⊢
  exact h.sublist ((aerase_sublist m k).map Prod.fst)

theorem mem_of_afind?_eq_some {α : Type} {m : List (Nat × α)} {k : Nat} {v : α}
    (h : afind? m k = some v) : (k, v) ∈ m := by
  induction m with
  | nil => simp [afind?] at h
  | cons hd tl ih =>
    obtain ⟨a, b⟩ := hd
    by_cases hka : k = a
    · subst hka
      simp [afind?] at h
      simp [h]
    · simp [afind?, hka] at h
      simp [ih h]

theorem keysNodup_foldl_aerase {α : Type} {m : List (Nat × α)}
    (h : keysNodup m) (l : List Nat) :
    keysNodup (l.foldl (fun h p => aerase h p) m) := by
  induction l generalizing m with
  | nil => exact h
  | cons q l ih => exact ih (keysNodup_aerase h q)

theorem afind?_foldl_aerase_none {α : Type} {m : List (Nat × α)} {p : Nat}
    (h : afind? m p = none) (l : List Nat) :
    afind? (l.foldl (fun h q => aerase h q) m) p = none := by
  induction l generalizing m with
  | nil => exact h
  | cons q l ih => exact ih (afind?_aerase_none h q)

theorem afind?_foldl_aerase_of_mem {α : Type} {m : List (Nat × α)} {p : Nat}
    (hn : keysNodup m) {l : List Nat} (hp : p ∈ l) :
    afind? (l.foldl (fun h q => aerase h q) m) p = none := by
  induction l generalizing m with
  | nil => simp at hp
  | cons q l ih =>
    rcases List.mem_cons.mp hp with h | h
    · subst h
      exact afind?_foldl_aerase_none (afind?_aerase_self hn p) l
    · exact ih (keysNodup_aerase hn q) h

/-- Copying route.at(i) for every i below route.size() reproduces the
route exactly. -/
theorem copy_route_points_eq (l : List AvoidPoint) : copy_route_points l = l := by
  unfold copy_route_points
  induction l with
  | nil => rfl
  | cons a t ih =>
    rw [List.length_cons, List.range_succ_eq_map, List.map_cons, List.map_map]
    have hf : ((fun i => (a :: t).getD i { x := 0, y := 0 }) ∘ Nat.succ)
        = (fun i => t.getD i { x := 0, y := 0 }) := by
      funext i
      simp [List.getD_cons_succ]
    rw [List.getD_cons_zero, hf, ih]

/-! ## Claim theorems -/

/-- C9: if the points out-parameter passed to getRoute is a null
pointer, getRoute returns 0 and has no effect: nothing is written
through the pointer and the registry state is unchanged, for every
router and connector handle. -/
theorem get_route_null_points_noop (st : WState) (router : Ptr) (conn_id : Nat) :
    avoid_router_get_route_points st router conn_id none = some (0, none, st) := by
  unfold avoid_router_get_route_points
  simp

/-- C10: addObstacle and addConnector called with a null router handle
return the sentinel 0 and leave the state completely unchanged, so the
process-wide id counters are not incremented and no map is modified. -/
theorem add_null_router_no_effect (st : WState) (rect : AvoidRectangle)
    (a b : AvoidPoint) :
    avoid_router_add_shape st 0 rect = some (0, st) ∧
    avoid_router_add_connector st 0 a b = some (0, st) := by
  exact ⟨rfl, rfl⟩

/-- The cast is the identity on sizes below 2^31. -/
theorem intCast32_eq_of_lt {n : Nat} (h : n < 2147483648) :
    intCast32 n = (n : Int) := by
  unfold intCast32
  rw [Nat.mod_eq_of_lt (by omega)]
  rw [if_pos h]

/-- The success path of avoid_router_get_route_points: a resolvable
connector with a non-empty route yields the narrowed size as the count,
a fresh element-wise copy of the route through the pointer, and an
unchanged state. -/
theorem get_route_success (st : WState) (r : Ptr) (cid : Nat)
    (inner : List (Nat × Ptr)) (p : Ptr) (conn : ConnObj) (cell : Cell)
    (h0 : r ≠ 0)
    (h1 : afind? st.g_connectors r = some inner)
    (h2 : afind? inner cid = some p)
    (h3 : afind? st.connHeap p = some conn)
    (h4 : conn.route ≠ []) :
    avoid_router_get_route_points st r cid (some cell) =
      some (intCast32 conn.route.length,
        some (some (copy_route_points conn.route)), st) := by
  have hlen : conn.route.length ≠ 0 := by
    simpa [List.length_eq_zero] using h4
  have hcond : ¬(r = 0 ∨ (some cell : Option Cell) = none) := by simp [h0]
  simp only [avoid_router_get_route_points, if_neg hcond, h1, h2, h3]
  rw [if_neg hlen]

/-- C6 (amended): for a live router handle and a connector that exists
under it with a non-empty computed route of n points where n fits a
32-bit signed int (n below 2^31 — the count is returned through
static_cast to int, see the counterexample for larger routes), getRoute
returns count n and writes through the caller's pointer a freshly built
buffer holding copies of exactly those n points in traversal order; the
registry state (including the connector's own route storage) is
unchanged. -/
theorem get_route_returns_fresh_copy (st : WState) (r : Ptr) (cid : Nat)
    (inner : List (Nat × Ptr)) (p : Ptr) (conn : ConnObj) (cell : Cell)
    (h0 : r ≠ 0)
    (h1 : afind? st.g_connectors r = some inner)
    (h2 : afind? inner cid = some p)
    (h3 : afind? st.connHeap p = some conn)
    (h4 : conn.route ≠ [])
    (h5 : conn.route.length < 2147483648) :
    avoid_router_get_route_points st r cid (some cell) =
      some ((conn.route.length : Int),
        some (some (copy_route_points conn.route)), st) ∧
    copy_route_points conn.route = conn.route ∧
    (conn.route.length : Int) ≠ 0 := by
  have hlen : conn.route.length ≠ 0 := by
    simpa [List.length_eq_zero] using h4
  refine ⟨?_, copy_route_points_eq _, by exact_mod_cast hlen⟩
  rw [get_route_success st r cid inner p conn cell h0 h1 h2 h3 h4,
    intCast32_eq_of_lt h5]

/-- C6 witness: in the demo state, querying connector 1 of router 1
returns count 2 and a copy of the straight-line route. -/
theorem get_route_returns_fresh_copy_witness :
    avoid_router_get_route_points stDemo 1 1 (some none) =
      some ((connDemo.route.length : Int),
        some (some (copy_route_points connDemo.route)), stDemo) ∧
    copy_route_points connDemo.route = connDemo.route ∧
    (connDemo.route.length : Int) ≠ 0 :=
  get_route_returns_fresh_copy stDemo 1 1 [(1, 3)] 3 connDemo none (by decide)
    (by decide) (by decide) (by decide) (by decide) (by decide)

/-- C6 counterexample: a connector whose computed route has 2^31 points
makes getRoute return count -2147483648 — the two's-complement
narrowing of the size — and not the route's point count 2147483648, so
"returns count n" fails for routes whose size does not fit in the
32-bit signed return type. -/
theorem get_route_int_narrowing_counterexample :
    avoid_router_get_route_points stBig 1 1 (some none) =
      some (-2147483648,
        some (some (copy_route_points connBig.route)), stBig) ∧
    (connBig.route.length : Int) = 2147483648 ∧
    (-2147483648 : Int) ≠ 2147483648 := by
  have hlen : connBig.route.length = 2147483648 := by
    show (List.replicate 2147483648 ptZ).length = 2147483648
    rw [List.length_replicate]
  have hne : connBig.route ≠ [] := by
    intro hcon
    have hlen0 := congrArg List.length hcon
    rw [hlen] at hlen0
    simp at hlen0
  refine ⟨?_, by exact_mod_cast hlen, by decide⟩
  have hres := get_route_success stBig 1 1 [(1, 2)] 2 connBig none (by decide)
    rfl rfl rfl hne
  rw [hres, hlen, show intCast32 2147483648 = (-2147483648 : Int) from by decide]

/-- C3 (amended): whenever getRoute signals "no route" it returns count
0, writes nothing through the points pointer — the caller's buffer
variable keeps whatever value it already had, so it is null afterwards
only if the caller initialized it to null — and leaves the registry
unchanged; and, provided every stored route is shorter than 2^31 points
(so its size survives the static_cast to the 32-bit int count), a
resolvable connector with a non-empty route is never signalled with
count 0. -/
theorem get_route_count_zero_no_write (st : WState) (r : Ptr) (cid : Nat)
    (points : Option Cell) (n : Int) (points' : Option Cell) (st' : WState)
    (hroutes : ∀ pr ∈ st.connHeap, pr.2.route.length < 2147483648)
    (h : avoid_router_get_route_points st r cid points = some (n, points', st')) :
    st' = st ∧ (n = 0 → points' = points) ∧
    (∀ inner p conn, r ≠ 0 → points ≠ none →
      afind? st.g_connectors r = some inner → afind? inner cid = some p →
      afind? st.connHeap p = some conn → conn.route ≠ [] →
      n = (conn.route.length : Int) ∧ n ≠ 0) := by
  unfold avoid_router_get_route_points at h
  split at h
  next hc =>
    simp only [Option.some.injEq, Prod.mk.injEq] at h
    obtain ⟨hn, hp, hs⟩ := h
    refine ⟨hs.symm, fun _ => hp.symm, ?_⟩
    intro inner p conn hr hpts _ _ _ _
    rcases hc with hc | hc
    · exact absurd hc hr
    · exact absurd hc hpts
  next hc =>
    split at h
    next hfound =>
      simp only [Option.some.injEq, Prod.mk.injEq] at h
      obtain ⟨hn, hp, hs⟩ := h
      refine ⟨hs.symm, fun _ => hp.symm, ?_⟩
      intro inner p conn _ _ hinner _ _ _
      rw [hfound] at hinner
      cases hinner
    next inner0 hfound =>
      split at h
      next hfound2 =>
        simp only [Option.some.injEq, Prod.mk.injEq] at h
        obtain ⟨hn, hp, hs⟩ := h
        refine ⟨hs.symm, fun _ => hp.symm, ?_⟩
        intro inner p conn _ _ hinner hpid _ _
        rw [hfound] at hinner
        cases hinner
        rw [hfound2] at hpid
        cases hpid
      next p0 hfound2 =>
        split at h
        next hheap =>
          simp at h
        next conn0 hheap =>
          have hb : conn0.route.length < 2147483648 :=
            hroutes (p0, conn0) (mem_of_afind?_eq_some hheap)
          have hcast : intCast32 conn0.route.length =
              (conn0.route.length : Int) := intCast32_eq_of_lt hb
          split at h
          next hlen =>
            simp only [Option.some.injEq, Prod.mk.injEq] at h
            obtain ⟨hn, hp, hs⟩ := h
            refine ⟨hs.symm, fun _ => hp.symm, ?_⟩
            intro inner p conn _ _ hinner hpid hconn hroute
            rw [hfound] at hinner
            cases hinner
            rw [hfound2] at hpid
            cases hpid
            rw [hheap] at hconn
            cases hconn
            exact absurd (List.length_eq_zero.mp hlen) hroute
          next hlen =>
            simp only [Option.some.injEq, Prod.mk.injEq] at h
            obtain ⟨hn, hp, hs⟩ := h
            have hnz : n ≠ 0 := by
              intro hn0
              rw [← hn, hcast] at hn0
              exact hlen (by exact_mod_cast hn0)
            refine ⟨hs.symm, fun hn0 => absurd hn0 hnz, ?_⟩
            intro inner p conn _ _ hinner hpid hconn _
            rw [hfound] at hinner
            cases hinner
            rw [hfound2] at hpid
            cases hpid
            rw [hheap] at hconn
            cases hconn
            exact ⟨(hcast ▸ hn).symm, hnz⟩

/-- C3 witness: an unknown connector signals no route with count 0 and
the caller's buffer variable unchanged. -/
theorem get_route_count_zero_no_write_witness :
    initState = initState ∧
    ((0 : Int) = 0 →
      (some (some ([] : List AvoidPoint)) : Option Cell) = some (some [])) :=
  ⟨(get_route_count_zero_no_write initState 5 1 (some (some [])) 0
      (some (some [])) initState (by decide) (by decide)).1,
   (get_route_count_zero_no_write initState 5 1 (some (some [])) 0
      (some (some [])) initState (by decide) (by decide)).2.1⟩

/-- C3 counterexample: getRoute on an unknown connector handle returns
count 0 but leaves the caller's points variable holding its previous
non-null value — the code never writes null through the pointer, so "no
route" does not leave the buffer set to null unless the caller nulled
it beforehand. -/
theorem get_route_no_route_buffer_not_nulled :
    avoid_router_get_route_points initState 5 1
        (some (some [{ x := 7, y := 8 }])) =
      some (0, some (some [{ x := 7, y := 8 }]), initState) ∧
    (some [({ x := 7, y := 8 } : AvoidPoint)] : Cell) ≠ none :=
  ⟨by decide, by decide⟩

/-- C7: deleteObstacle and deleteConnector are idempotent: once a
delete call has returned, repeating the same call finds no mapping and
is a no-op leaving the registry exactly as the first call left it.
(The duplicate-free key hypotheses record that a std::map holds at most
one entry per key.) -/
theorem delete_idempotent (st : WState) (r : Ptr) (sid cid : Nat)
    (st1 st2 : WState)
    (hnS : keysNodup (innerShapes st r)) (hnC : keysNodup (innerConns st r))
    (h1 : avoid_router_delete_shape st r sid = some st1)
    (h2 : avoid_router_delete_connector st r cid = some st2) :
    avoid_router_delete_shape st1 r sid = some st1 ∧
    avoid_router_delete_connector st2 r cid = some st2 := by
  constructor
  · unfold avoid_router_delete_shape at h1
    split at h1
    next hr =>
      cases h1
      simp [avoid_router_delete_shape, hr]
    next hr =>
      split at h1
      next hfound =>
        cases h1
        simp [avoid_router_delete_shape, if_neg hr, hfound]
      next inner hfound =>
        split at h1
        next hfound2 =>
          cases h1
          simp [avoid_router_delete_shape, if_neg hr, hfound, hfound2]
        next p hfound2 =>
          split at h1
          next => simp at h1
          next obj hheap =>
            split at h1
            next => simp at h1
            next e heng =>
              cases h1
              have hinner : keysNodup inner := by
                unfold innerShapes at hnS
                rw [hfound] at hnS
                simpa using hnS
              simp only [avoid_router_delete_shape, if_neg hr, afind?_aset,
                eq_self_iff_true, if_true, afind?_aerase_self hinner]
  · unfold avoid_router_delete_connector at h2
    split at h2
    next hr =>
      cases h2
      simp [avoid_router_delete_connector, hr]
    next hr =>
      split at h2
      next hfound =>
        cases h2
        simp [avoid_router_delete_connector, if_neg hr, hfound]
      next inner hfound =>
        split at h2
        next hfound2 =>
          cases h2
          simp [avoid_router_delete_connector, if_neg hr, hfound, hfound2]
        next p hfound2 =>
          split at h2
          next => simp at h2
          next obj hheap =>
            split at h2
            next => simp at h2
            next e heng =>
              cases h2
              have hinner : keysNodup inner := by
                unfold innerConns at hnC
                rw [hfound] at hnC
                simpa using hnC
              simp only [avoid_router_delete_connector, if_neg hr, afind?_aset,
                eq_self_iff_true, if_true, afind?_aerase_self hinner]

/-- C7 witness: deleting obstacle 1 (resp. connector 1) of the demo
router twice equals deleting it once. -/
theorem delete_idempotent_witness :
    avoid_router_delete_shape stDelS 1 1 = some stDelS ∧
    avoid_router_delete_connector stDelC 1 1 = some stDelC :=
  delete_idempotent stDemo 1 1 1 stDelS stDelC (by decide) (by decide)
    (by decide) (by decide)

/-- C1 (amended): every entry point called with a null router handle is
a safe no-op returning the sentinel/empty value; and deleteObstacle,
deleteConnector and getRoute — the entry points that only consult the
tracking maps — are additionally safe no-ops for any router handle
without a tracking entry, which includes every handle already passed to
destroyRouter (its entries are erased) and hence every obstacle or
connector handle issued under it.  The remaining entry points
(destroyRouter, addObstacle, addConnector, computeRoutes) dereference
any non-null router handle without validating it, so on a destroyed or
otherwise unknown non-null handle they are undefined behavior rather
than safe no-ops; see the counterexample. -/
theorem safe_noop_null_and_stale_lookups (st : WState) (r : Ptr)
    (rect : AvoidRectangle) (a b : AvoidPoint) (id : Nat) (cell : Option Cell)
    (oracle : AvoidPoint → AvoidPoint → List AvoidPoint)
    (hS : afind? st.g_shapes r = none) (hC : afind? st.g_connectors r = none) :
    avoid_router_delete st 0 = some (st, []) ∧
    avoid_router_add_shape st 0 rect = some (0, st) ∧
    avoid_router_add_connector st 0 a b = some (0, st) ∧
    avoid_router_process_transaction oracle st 0 = some st ∧
    avoid_router_delete_shape st 0 id = some st ∧
    avoid_router_delete_connector st 0 id = some st ∧
    avoid_router_get_route_points st 0 id cell = some (0, cell, st) ∧
    avoid_router_delete_shape st r id = some st ∧
    avoid_router_delete_connector st r id = some st ∧
    avoid_router_get_route_points st r id cell = some (0, cell, st) := by
  refine ⟨rfl, rfl, rfl, rfl, rfl, rfl, ?_, ?_, ?_, ?_⟩
  · unfold avoid_router_get_route_points
    rw [if_pos (Or.inl rfl)]
  · by_cases hr : r = 0
    · simp [avoid_router_delete_shape, hr]
    · simp [avoid_router_delete_shape, if_neg hr, hS]
  · by_cases hr : r = 0
    · simp [avoid_router_delete_connector, hr]
    · simp [avoid_router_delete_connector, if_neg hr, hC]
  · by_cases hr : r = 0
    · unfold avoid_router_get_route_points
      rw [if_pos (Or.inl hr)]
    · by_cases hcell : cell = none
      · unfold avoid_router_get_route_points
        rw [if_pos (Or.inr hcell)]
      · unfold avoid_router_get_route_points
        rw [if_neg (by simp [hr, hcell]), hC]

/-- C1 witness: with the stale handle 1 of a destroyed router, the
lookup-only entry points are safe no-ops, and every entry point is a
safe no-op on the null handle. -/
theorem safe_noop_null_and_stale_lookups_witness :
    avoid_router_delete stDestroyed 0 = some (stDestroyed, []) ∧
    avoid_router_add_shape stDestroyed 0 rect0 = some (0, stDestroyed) ∧
    avoid_router_add_connector stDestroyed 0 ptA ptB = some (0, stDestroyed) ∧
    avoid_router_process_transaction oracle0 stDestroyed 0 = some stDestroyed ∧
    avoid_router_delete_shape stDestroyed 0 1 = some stDestroyed ∧
    avoid_router_delete_connector stDestroyed 0 1 = some stDestroyed ∧
    avoid_router_get_route_points stDestroyed 0 1 (some none) =
      some (0, some none, stDestroyed) ∧
    avoid_router_delete_shape stDestroyed 1 1 = some stDestroyed ∧
    avoid_router_delete_connector stDestroyed 1 1 = some stDestroyed ∧
    avoid_router_get_route_points stDestroyed 1 1 (some none) =
      some (0, some none, stDestroyed) :=
  safe_noop_null_and_stale_lookups stDestroyed 1 rect0 ptA ptB 1 (some none)
    oracle0 (by decide) (by decide)

/-- C1 counterexample: create a router (handle 1), destroy it, then call
the dereferencing entry points with the stale handle: each call
dereferences the freed engine pointer — undefined behavior (none) — and
in particular a second destroyRouter is a double free, contradicting
the claim that such calls are safe no-ops returning the sentinel and
never exhibit undefined behavior. -/
theorem stale_router_dereference_counterexample :
    avoid_router_delete stAfterNew 1 =
      some (stDestroyed,
        [DEvent.eraseShapesEntry 1, DEvent.eraseConnsEntry 1,
         DEvent.releaseEngine 1]) ∧
    avoid_router_add_shape stDestroyed 1 rect0 = none ∧
    avoid_router_add_connector stDestroyed 1 ptA ptB = none ∧
    avoid_router_process_transaction oracle0 stDestroyed 1 = none ∧
    avoid_router_delete stDestroyed 1 = none :=
  ⟨by decide, by decide, by decide, by decide, by decide⟩

/-- A two-level lookup miss is a complete no-op: when an id has no
entry in router A's inner maps, deleteObstacle, deleteConnector and
getRoute on A return the state entirely unchanged. -/
theorem lookup_miss_noop (st : WState) (A : Ptr) (sid cid : Nat)
    (cell : Option Cell) (hA0 : A ≠ 0)
    (hmissS : afind? (innerShapes st A) sid = none)
    (hmissC : afind? (innerConns st A) cid = none) :
    avoid_router_delete_shape st A sid = some st ∧
    avoid_router_delete_connector st A cid = some st ∧
    avoid_router_get_route_points st A cid cell = some (0, cell, st) := by
  refine ⟨?_, ?_, ?_⟩
  · cases hout : afind? st.g_shapes A with
    | none => simp [avoid_router_delete_shape, if_neg hA0, hout]
    | some innerA =>
      have : afind? innerA sid = none := by
        unfold innerShapes at hmissS
        rw [hout] at hmissS
        simpa using hmissS
      simp [avoid_router_delete_shape, if_neg hA0, hout, this]
  · cases hout : afind? st.g_connectors A with
    | none => simp [avoid_router_delete_connector, if_neg hA0, hout]
    | some innerA =>
      have : afind? innerA cid = none := by
        unfold innerConns at hmissC
        rw [hout] at hmissC
        simpa using hmissC
      simp [avoid_router_delete_connector, if_neg hA0, hout, this]
  · by_cases hcell : cell = none
    · unfold avoid_router_get_route_points
      rw [if_pos (Or.inr hcell)]
    · cases hout : afind? st.g_connectors A with
      | none =>
        unfold avoid_router_get_route_points
        rw [if_neg (by simp [hA0, hcell]), hout]
      | some innerA =>
        have hmiss : afind? innerA cid = none := by
          unfold innerConns at hmissC
          rw [hout] at hmissC
          simpa using hmissC
        unfold avoid_router_get_route_points
        rw [if_neg (by simp [hA0, hcell]), hout]
        simp [hmiss]

/-- C8: lookups go through the two-level mapping router to (id to
native object): for two distinct live routers A and B, whether the
handle was issued under B (with the registry invariant that distinct
routers' sub-maps share no ids, since ids are issued globally) or was
never issued at all (it lies at or above the corresponding process-wide
counter, and every id in A's sub-maps is below that counter), calling
deleteObstacle/deleteConnector/getRoute on A with that handle is a
no-op/empty result that returns the state entirely unchanged, so every
router's sub-registry — including both A's and B's — is untouched. -/
theorem cross_router_lookup_isolated (st : WState) (A B : Ptr)
    (sidB cidB sidU cidU : Nat) (pS pC : Ptr) (cell : Option Cell)
    (hA0 : A ≠ 0)
    (hAlive : (afind? st.engines A).isSome = true)
    (hBlive : (afind? st.engines B).isSome = true)
    (hSB : afind? (innerShapes st B) sidB = some pS)
    (hCB : afind? (innerConns st B) cidB = some pC)
    (hdisjS : ∀ pr ∈ innerShapes st A, afind? (innerShapes st B) pr.1 = none)
    (hdisjC : ∀ pr ∈ innerConns st A, afind? (innerConns st B) pr.1 = none)
    (hbndS : ∀ pr ∈ innerShapes st A, pr.1 < st.g_next_shape_id)
    (hbndC : ∀ pr ∈ innerConns st A, pr.1 < st.g_next_connector_id)
    (hU1 : st.g_next_shape_id ≤ sidU)
    (hU2 : st.g_next_connector_id ≤ cidU) :
    avoid_router_delete_shape st A sidB = some st ∧
    avoid_router_delete_connector st A cidB = some st ∧
    avoid_router_get_route_points st A cidB cell = some (0, cell, st) ∧
    avoid_router_delete_shape st A sidU = some st ∧
    avoid_router_delete_connector st A cidU = some st ∧
    avoid_router_get_route_points st A cidU cell = some (0, cell, st) := by
  have hmissS : afind? (innerShapes st A) sidB = none := by
    cases hq : afind? (innerShapes st A) sidB with
    | none => rfl
    | some q =>
      have hmem := mem_of_afind?_eq_some hq
      have := hdisjS (sidB, q) hmem
      rw [this] at hSB
      cases hSB
  have hmissC : afind? (innerConns st A) cidB = none := by
    cases hq : afind? (innerConns st A) cidB with
    | none => rfl
    | some q =>
      have hmem := mem_of_afind?_eq_some hq
      have := hdisjC (cidB, q) hmem
      rw [this] at hCB
      cases hCB
  have hmissSU : afind? (innerShapes st A) sidU = none := by
    cases hq : afind? (innerShapes st A) sidU with
    | none => rfl
    | some q =>
      have := hbndS (sidU, q) (mem_of_afind?_eq_some hq)
      omega
  have hmissCU : afind? (innerConns st A) cidU = none := by
    cases hq : afind? (innerConns st A) cidU with
    | none => rfl
    | some q =>
      have := hbndC (cidU, q) (mem_of_afind?_eq_some hq)
      omega
  obtain ⟨hB1, hB2, hB3⟩ := lookup_miss_noop st A sidB cidB cell hA0 hmissS hmissC
  obtain ⟨hU1', hU2', hU3'⟩ := lookup_miss_noop st A sidU cidU cell hA0 hmissSU hmissCU
  exact ⟨hB1, hB2, hB3, hU1', hU2', hU3'⟩

/-- C8 witness: in the two-router state, using router 1's handles
(shape 1, connector 1) against router 2 is a complete no-op, and so is
using the never-issued handles 5 and 9 against router 2. -/
theorem cross_router_lookup_isolated_witness :
    avoid_router_delete_shape stTwo 2 1 = some stTwo ∧
    avoid_router_delete_connector stTwo 2 1 = some stTwo ∧
    avoid_router_get_route_points stTwo 2 1 (some none) =
      some (0, some none, stTwo) ∧
    avoid_router_delete_shape stTwo 2 5 = some stTwo ∧
    avoid_router_delete_connector stTwo 2 9 = some stTwo ∧
    avoid_router_get_route_points stTwo 2 9 (some none) =
      some (0, some none, stTwo) :=
  cross_router_lookup_isolated stTwo 2 1 1 1 5 9 3 4 (some none) (by decide)
    (by decide) (by decide) (by decide) (by decide) (by decide) (by decide)
    (by decide) (by decide) (by decide) (by decide)

/-- C2 (amended): destroyRouter on a live router handle first removes
the handle's entries from both top-level tracking maps, then releases
the engine instance; during the engine's destruction every obstacle and
every connector registered under the handle is released before the
engine instance's own storage is freed (the final teardown event), and
afterwards the handle resolves to nothing.  The hypotheses relate the
tracking maps to the engine's registration lists (every tracked native
object is registered with its engine) and record std::map key
uniqueness. -/
theorem destroy_releases_all_before_engine (st : WState) (h : Ptr)
    (e : Engine) (st' : WState) (tr : List DEvent)
    (h0 : h ≠ 0)
    (he : afind? st.engines h = some e)
    (hnodS : keysNodup st.g_shapes) (hnodC : keysNodup st.g_connectors)
    (hnodE : keysNodup st.engines)
    (hnodSH : keysNodup st.shapeHeap) (hnodCH : keysNodup st.connHeap)
    (hboundS : ∀ pr ∈ innerShapes st h, pr.2 ∈ e.boundShapes)
    (hboundC : ∀ pr ∈ innerConns st h, pr.2 ∈ e.boundConns)
    (hrun : avoid_router_delete st h = some (st', tr)) :
    tr.take 2 = [DEvent.eraseShapesEntry h, DEvent.eraseConnsEntry h] ∧
    tr.getLast? = some (DEvent.releaseEngine h) ∧
    (∀ pr ∈ innerShapes st h, DEvent.releaseShape pr.2 ∈ tr.dropLast) ∧
    (∀ pr ∈ innerConns st h, DEvent.releaseConn pr.2 ∈ tr.dropLast) ∧
    afind? st'.g_shapes h = none ∧ afind? st'.g_connectors h = none ∧
    afind? st'.engines h = none ∧
    (∀ pr ∈ innerShapes st h, afind? st'.shapeHeap pr.2 = none) ∧
    (∀ pr ∈ innerConns st h, afind? st'.connHeap pr.2 = none) := by
  unfold avoid_router_delete at hrun
  rw [if_neg h0, he] at hrun
  simp only [Option.some.injEq, Prod.mk.injEq] at hrun
  obtain ⟨hst, htr⟩ := hrun
  subst hst
  subst htr
  have hassoc :
      [DEvent.eraseShapesEntry h, DEvent.eraseConnsEntry h]
          ++ e.boundConns.map DEvent.releaseConn
          ++ e.boundShapes.map DEvent.releaseShape
          ++ [DEvent.releaseEngine h] =
        ([DEvent.eraseShapesEntry h, DEvent.eraseConnsEntry h]
          ++ e.boundConns.map DEvent.releaseConn
          ++ e.boundShapes.map DEvent.releaseShape)
          ++ [DEvent.releaseEngine h] := rfl
  refine ⟨rfl, ?_, ?_, ?_, afind?_aerase_self hnodS h,
    afind?_aerase_self hnodC h, afind?_aerase_self hnodE h, ?_, ?_⟩
  · rw [hassoc, List.getLast?_concat]
  · intro pr hpr
    rw [hassoc, List.dropLast_concat]
    have : DEvent.releaseShape pr.2 ∈ e.boundShapes.map DEvent.releaseShape :=
      List.mem_map_of_mem _ (hboundS pr hpr)
    exact List.mem_append_right _ this
  · intro pr hpr
    rw [hassoc, List.dropLast_concat]
    have h1 : DEvent.releaseConn pr.2 ∈ e.boundConns.map DEvent.releaseConn :=
      List.mem_map_of_mem _ (hboundC pr hpr)
    have h2 : DEvent.releaseConn pr.2 ∈
        [DEvent.eraseShapesEntry h, DEvent.eraseConnsEntry h]
          ++ e.boundConns.map DEvent.releaseConn :=
      List.mem_append_right _ h1
    exact List.mem_append_left _ h2
  · intro pr hpr
    exact afind?_foldl_aerase_of_mem hnodSH (hboundS pr hpr)
  · intro pr hpr
    exact afind?_foldl_aerase_of_mem hnodCH (hboundC pr hpr)

/-- C2 witness: destroying the demo router erases both tracking
entries, releases the native connector and shape before the engine, and
leaves nothing resolvable. -/
theorem destroy_releases_all_before_engine_witness :
    trDemo.take 2 = [DEvent.eraseShapesEntry 1, DEvent.eraseConnsEntry 1] ∧
    trDemo.getLast? = some (DEvent.releaseEngine 1) ∧
    DEvent.releaseShape 2 ∈ trDemo.dropLast ∧
    DEvent.releaseConn 3 ∈ trDemo.dropLast ∧
    afind? stDemoGone.g_shapes 1 = none ∧
    afind? stDemoGone.g_connectors 1 = none ∧
    afind? stDemoGone.engines 1 = none ∧
    afind? stDemoGone.shapeHeap 2 = none ∧
    afind? stDemoGone.connHeap 3 = none :=
  let T := destroy_releases_all_before_engine stDemo 1 engDemo stDemoGone
    trDemo (by decide) (by decide) (by decide) (by decide) (by decide)
    (by decide) (by decide) (by decide) (by decide) (by decide)
  ⟨T.1, T.2.1, T.2.2.1 (1, 2) (by decide), T.2.2.2.1 (1, 3) (by decide),
    T.2.2.2.2.1, T.2.2.2.2.2.1, T.2.2.2.2.2.2.1,
    T.2.2.2.2.2.2.2.1 (1, 2) (by decide), T.2.2.2.2.2.2.2.2 (1, 3) (by decide)⟩

/-- C2 counterexample: in the destruction trace of the demo router the
removal of the handle from the top-level maps comes first, before any
obstacle/connector release and before the engine release — not after
them as the claim's "and then removes the handle from the top-level
map" requires. -/
theorem destroy_order_counterexample :
    (avoid_router_delete stDemo 1).map Prod.snd =
      some [DEvent.eraseShapesEntry 1, DEvent.eraseConnsEntry 1,
            DEvent.releaseConn 3, DEvent.releaseShape 2,
            DEvent.releaseEngine 1] := by decide

/-- avoid_router_delete never touches the id counters. -/
theorem avoid_router_delete_counters {st : WState} {r : Ptr}
    {x : WState × List DEvent} (h : avoid_router_delete st r = some x) :
    x.1.g_next_shape_id = st.g_next_shape_id ∧
    x.1.g_next_connector_id = st.g_next_connector_id := by
  unfold avoid_router_delete at h
  split at h
  · cases h; exact ⟨rfl, rfl⟩
  · split at h
    · simp at h
    · cases h; exact ⟨rfl, rfl⟩

/-- avoid_router_delete_shape never touches the id counters. -/
theorem avoid_router_delete_shape_counters {st : WState} {r : Ptr} {id : Nat}
    {st' : WState} (h : avoid_router_delete_shape st r id = some st') :
    st'.g_next_shape_id = st.g_next_shape_id ∧
    st'.g_next_connector_id = st.g_next_connector_id := by
  unfold avoid_router_delete_shape at h
  split at h
  · cases h; exact ⟨rfl, rfl⟩
  · split at h
    · cases h; exact ⟨rfl, rfl⟩
    · split at h
      · cases h; exact ⟨rfl, rfl⟩
      · split at h
        · simp at h
        · split at h
          · simp at h
          · cases h; exact ⟨rfl, rfl⟩

/-- avoid_router_delete_connector never touches the id counters. -/
theorem avoid_router_delete_connector_counters {st : WState} {r : Ptr}
    {id : Nat} {st' : WState}
    (h : avoid_router_delete_connector st r id = some st') :
    st'.g_next_shape_id = st.g_next_shape_id ∧
    st'.g_next_connector_id = st.g_next_connector_id := by
  unfold avoid_router_delete_connector at h
  split at h
  · cases h; exact ⟨rfl, rfl⟩
  · split at h
    · cases h; exact ⟨rfl, rfl⟩
    · split at h
      · cases h; exact ⟨rfl, rfl⟩
      · split at h
        · simp at h
        · split at h
          · simp at h
          · cases h; exact ⟨rfl, rfl⟩

/-- avoid_router_process_transaction never touches the id counters. -/
theorem avoid_router_process_transaction_counters
    {oracle : AvoidPoint → AvoidPoint → List AvoidPoint} {st : WState}
    {r : Ptr} {st' : WState}
    (h : avoid_router_process_transaction oracle st r = some st') :
    st'.g_next_shape_id = st.g_next_shape_id ∧
    st'.g_next_connector_id = st.g_next_connector_id := by
  unfold avoid_router_process_transaction at h
  split at h
  · cases h; exact ⟨rfl, rfl⟩
  · split at h
    · simp at h
    · cases h; exact ⟨rfl, rfl⟩

/-- avoid_router_get_route_points returns the registry state unchanged
on every defined path. -/
theorem avoid_router_get_route_points_state {st : WState} {r : Ptr}
    {id : Nat} {points : Option Cell} {y : Int × Option Cell × WState}
    (h : avoid_router_get_route_points st r id points = some y) :
    y.2.2 = st := by
  unfold avoid_router_get_route_points at h
  split at h
  · cases h; rfl
  · split at h
    · cases h; rfl
    · split at h
      · cases h; rfl
      · split at h
        · simp at h
        · split at h
          · cases h; rfl
          · cases h; rfl

/-- A successful addShape on a non-null router returns the current
value of the shape counter and bumps only that counter (unsigned
increment). -/
theorem avoid_router_add_shape_success {st : WState} {r : Ptr}
    {rect : AvoidRectangle} {x : Nat × WState} (hr : r ≠ 0)
    (h : avoid_router_add_shape st r rect = some x) :
    x.1 = st.g_next_shape_id ∧
    x.2.g_next_shape_id = (st.g_next_shape_id + 1) % UINT_MOD ∧
    x.2.g_next_connector_id = st.g_next_connector_id := by
  unfold avoid_router_add_shape at h
  rw [if_neg hr] at h
  split at h
  · simp at h
  · cases h; exact ⟨rfl, rfl, rfl⟩

/-- A successful addConn on a non-null router returns the current value
of the connector counter and bumps only that counter. -/
theorem avoid_router_add_connector_success {st : WState} {r : Ptr}
    {a b : AvoidPoint} {x : Nat × WState} (hr : r ≠ 0)
    (h : avoid_router_add_connector st r a b = some x) :
    x.1 = st.g_next_connector_id ∧
    x.2.g_next_connector_id = (st.g_next_connector_id + 1) % UINT_MOD ∧
    x.2.g_next_shape_id = st.g_next_shape_id := by
  unfold avoid_router_add_connector at h
  rw [if_neg hr] at h
  split at h
  · simp at h
  · cases h; exact ⟨rfl, rfl, rfl⟩

/-- Cons step of countShapeAdds for non-issuing calls. -/
theorem countShapeAdds_cons_false (c : Call) (h : isIssuingShapeAdd c = false)
    (cs : List Call) : countShapeAdds (c :: cs) = countShapeAdds cs := by
  unfold countShapeAdds
  rw [List.filter_cons_of_neg (by simp [h])]

/-- Cons step of countShapeAdds for issuing calls. -/
theorem countShapeAdds_cons_true (c : Call) (h : isIssuingShapeAdd c = true)
    (cs : List Call) : countShapeAdds (c :: cs) = countShapeAdds cs + 1 := by
  unfold countShapeAdds
  rw [List.filter_cons_of_pos h, List.length_cons]

/-- Cons step of countConnAdds for non-issuing calls. -/
theorem countConnAdds_cons_false (c : Call) (h : isIssuingConnAdd c = false)
    (cs : List Call) : countConnAdds (c :: cs) = countConnAdds cs := by
  unfold countConnAdds
  rw [List.filter_cons_of_neg (by simp [h])]

/-- Cons step of countConnAdds for issuing calls. -/
theorem countConnAdds_cons_true (c : Call) (h : isIssuingConnAdd c = true)
    (cs : List Call) : countConnAdds (c :: cs) = countConnAdds cs + 1 := by
  unfold countConnAdds
  rw [List.filter_cons_of_pos h, List.length_cons]

/-- Calls that issue no shape handle contribute nothing to the issued
shape-id list. -/
theorem shapeIdsOf_cons_skip (c : Call) (h : isIssuingShapeAdd c = false)
    (cs : List Call) (r : Ret) (rs : List Ret) :
    shapeIdsOf (c :: cs) (r :: rs) = shapeIdsOf cs rs := by
  cases c <;> cases r <;> simp_all [shapeIdsOf, isIssuingShapeAdd]

/-- A successful addShape on a non-null router contributes its returned
id to the issued shape-id list. -/
theorem shapeIdsOf_cons_add {rr : Ptr} (h : rr ≠ 0) (rect : AvoidRectangle)
    (cs : List Call) (n : Nat) (rs : List Ret) :
    shapeIdsOf (Call.addShape rr rect :: cs) (Ret.rid n :: rs) =
      n :: shapeIdsOf cs rs := by
  simp [shapeIdsOf, h]

/-- Calls that issue no connector handle contribute nothing to the
issued connector-id list. -/
theorem connIdsOf_cons_skip (c : Call) (h : isIssuingConnAdd c = false)
    (cs : List Call) (r : Ret) (rs : List Ret) :
    connIdsOf (c :: cs) (r :: rs) = connIdsOf cs rs := by
  cases c <;> cases r <;> simp_all [connIdsOf, isIssuingConnAdd]

/-- A successful addConn on a non-null router contributes its returned
id to the issued connector-id list. -/
theorem connIdsOf_cons_add {rr : Ptr} (h : rr ≠ 0) (a b : AvoidPoint)
    (cs : List Call) (n : Nat) (rs : List Ret) :
    connIdsOf (Call.addConn rr a b :: cs) (Ret.rid n :: rs) =
      n :: connIdsOf cs rs := by
  simp [connIdsOf, h]

/-- Along any successful run in which neither unsigned counter wraps,
the shape handles returned by addShape calls are exactly the
consecutive counter values starting from the current shape counter, and
likewise for connector handles: no entry point ever resets or reuses
them. -/
theorem run_ids (oracle : AvoidPoint → AvoidPoint → List AvoidPoint) :
    ∀ (cs : List Call) (st : WState) (st' : WState) (rs : List Ret),
    run oracle st cs = some (st', rs) →
    st.g_next_shape_id + countShapeAdds cs < UINT_MOD →
    st.g_next_connector_id + countConnAdds cs < UINT_MOD →
    shapeIdsOf cs rs = List.range' st.g_next_shape_id (countShapeAdds cs) ∧
    connIdsOf cs rs = List.range' st.g_next_connector_id (countConnAdds cs)
  | [], st, st', rs, h, _, _ => by
    cases h
    exact ⟨rfl, rfl⟩
  | c :: cs, st, st', rs, h, hbS, hbC => by
    unfold run at h
    split at h
    next hstep => exact Option.noConfusion h
    next st1 r hstep =>
      split at h
      next => exact Option.noConfusion h
      next st2 rs0 hrun2 =>
        injection h with hpair
        injection hpair with hA hB
        subst hA
        subst hB
        cases c with
        | newRouter f =>
          simp only [step, Option.some.injEq, Prod.mk.injEq] at hstep
          obtain ⟨hst1, hr⟩ := hstep
          subst hst1
          subst hr
          rw [countShapeAdds_cons_false (Call.newRouter f) rfl] at hbS ⊢
          rw [countConnAdds_cons_false (Call.newRouter f) rfl] at hbC ⊢
          rw [shapeIdsOf_cons_skip (Call.newRouter f) rfl,
            connIdsOf_cons_skip (Call.newRouter f) rfl]
          exact run_ids oracle cs (avoid_router_new st f).2 st2 rs0 hrun2 hbS hbC
        | delRouter rr =>
          simp only [step, Option.map_eq_some'] at hstep
          obtain ⟨x, hop, hxf⟩ := hstep
          simp only [Prod.mk.injEq] at hxf
          obtain ⟨hst1, hr⟩ := hxf
          subst hst1
          subst hr
          obtain ⟨e1, e2⟩ := avoid_router_delete_counters hop
          rw [countShapeAdds_cons_false (Call.delRouter rr) rfl] at hbS ⊢
          rw [countConnAdds_cons_false (Call.delRouter rr) rfl] at hbC ⊢
          rw [shapeIdsOf_cons_skip (Call.delRouter rr) rfl,
            connIdsOf_cons_skip (Call.delRouter rr) rfl, ← e1, ← e2]
          exact run_ids oracle cs _ st2 rs0 hrun2 (by rw [e1]; exact hbS)
            (by rw [e2]; exact hbC)
        | addShape rr rect =>
          simp only [step, Option.map_eq_some'] at hstep
          obtain ⟨x, hop, hxf⟩ := hstep
          simp only [Prod.mk.injEq] at hxf
          obtain ⟨hst1, hr⟩ := hxf
          subst hst1
          subst hr
          by_cases h0 : rr = 0
          · subst h0
            have h' : avoid_router_add_shape st 0 rect = some (0, st) := rfl
            rw [hop] at h'
            injection h' with h''
            subst h''
            rw [countShapeAdds_cons_false (Call.addShape 0 rect)
              (by simp [isIssuingShapeAdd])] at hbS ⊢
            rw [countConnAdds_cons_false (Call.addShape 0 rect) rfl] at hbC ⊢
            rw [shapeIdsOf_cons_skip (Call.addShape 0 rect)
              (by simp [isIssuingShapeAdd]),
              connIdsOf_cons_skip (Call.addShape 0 rect) rfl]
            exact run_ids oracle cs ((0 : Nat), st).2 st2 rs0 hrun2 hbS hbC
          · obtain ⟨hid, e1, e2⟩ := avoid_router_add_shape_success h0 hop
            rw [countShapeAdds_cons_true (Call.addShape rr rect)
              (by simp [isIssuingShapeAdd, h0])] at hbS ⊢
            rw [countConnAdds_cons_false (Call.addShape rr rect) rfl] at hbC ⊢
            rw [shapeIdsOf_cons_add h0,
              connIdsOf_cons_skip (Call.addShape rr rect) rfl]
            have hlt : st.g_next_shape_id + 1 < UINT_MOD := by omega
            have e1' : x.2.g_next_shape_id = st.g_next_shape_id + 1 := by
              rw [e1, Nat.mod_eq_of_lt hlt]
            have hIH := run_ids oracle cs _ st2 rs0 hrun2
              (by rw [e1']; omega) (by rw [e2]; omega)
            rw [List.range'_succ]
            refine ⟨?_, ?_⟩
            · rw [hid]
              congr 1
              rw [← e1']
              exact hIH.1
            · rw [← e2]
              exact hIH.2
        | delShape rr id =>
          simp only [step, Option.map_eq_some'] at hstep
          obtain ⟨x, hop, hxf⟩ := hstep
          simp only [Prod.mk.injEq] at hxf
          obtain ⟨hst1, hr⟩ := hxf
          subst hst1
          subst hr
          obtain ⟨e1, e2⟩ := avoid_router_delete_shape_counters hop
          rw [countShapeAdds_cons_false (Call.delShape rr id) rfl] at hbS ⊢
          rw [countConnAdds_cons_false (Call.delShape rr id) rfl] at hbC ⊢
          rw [shapeIdsOf_cons_skip (Call.delShape rr id) rfl,
            connIdsOf_cons_skip (Call.delShape rr id) rfl, ← e1, ← e2]
          exact run_ids oracle cs _ st2 rs0 hrun2 (by rw [e1]; exact hbS)
            (by rw [e2]; exact hbC)
        | addConn rr a b =>
          simp only [step, Option.map_eq_some'] at hstep
          obtain ⟨x, hop, hxf⟩ := hstep
          simp only [Prod.mk.injEq] at hxf
          obtain ⟨hst1, hr⟩ := hxf
          subst hst1
          subst hr
          by_cases h0 : rr = 0
          · subst h0
            have h' : avoid_router_add_connector st 0 a b = some (0, st) := rfl
            rw [hop] at h'
            injection h' with h''
            subst h''
            rw [countShapeAdds_cons_false (Call.addConn 0 a b) rfl] at hbS ⊢
            rw [countConnAdds_cons_false (Call.addConn 0 a b)
              (by simp [isIssuingConnAdd])] at hbC ⊢
            rw [shapeIdsOf_cons_skip (Call.addConn 0 a b) rfl,
              connIdsOf_cons_skip (Call.addConn 0 a b)
                (by simp [isIssuingConnAdd])]
            exact run_ids oracle cs ((0 : Nat), st).2 st2 rs0 hrun2 hbS hbC
          · obtain ⟨hid, e1, e2⟩ := avoid_router_add_connector_success h0 hop
            rw [countShapeAdds_cons_false (Call.addConn rr a b) rfl] at hbS ⊢
            rw [countConnAdds_cons_true (Call.addConn rr a b)
              (by simp [isIssuingConnAdd, h0])] at hbC ⊢
            rw [connIdsOf_cons_add h0,
              shapeIdsOf_cons_skip (Call.addConn rr a b) rfl]
            have hlt : st.g_next_connector_id + 1 < UINT_MOD := by omega
            have e1' : x.2.g_next_connector_id = st.g_next_connector_id + 1 := by
              rw [e1, Nat.mod_eq_of_lt hlt]
            have hIH := run_ids oracle cs _ st2 rs0 hrun2
              (by rw [e2]; omega) (by rw [e1']; omega)
            rw [List.range'_succ]
            refine ⟨?_, ?_⟩
            · rw [← e2]
              exact hIH.1
            · rw [hid]
              congr 1
              rw [← e1']
              exact hIH.2
        | delConn rr id =>
          simp only [step, Option.map_eq_some'] at hstep
          obtain ⟨x, hop, hxf⟩ := hstep
          simp only [Prod.mk.injEq] at hxf
          obtain ⟨hst1, hr⟩ := hxf
          subst hst1
          subst hr
          obtain ⟨e1, e2⟩ := avoid_router_delete_connector_counters hop
          rw [countShapeAdds_cons_false (Call.delConn rr id) rfl] at hbS ⊢
          rw [countConnAdds_cons_false (Call.delConn rr id) rfl] at hbC ⊢
          rw [shapeIdsOf_cons_skip (Call.delConn rr id) rfl,
            connIdsOf_cons_skip (Call.delConn rr id) rfl, ← e1, ← e2]
          exact run_ids oracle cs _ st2 rs0 hrun2 (by rw [e1]; exact hbS)
            (by rw [e2]; exact hbC)
        | processTx rr =>
          simp only [step, Option.map_eq_some'] at hstep
          obtain ⟨x, hop, hxf⟩ := hstep
          simp only [Prod.mk.injEq] at hxf
          obtain ⟨hst1, hr⟩ := hxf
          subst hst1
          subst hr
          obtain ⟨e1, e2⟩ := avoid_router_process_transaction_counters hop
          rw [countShapeAdds_cons_false (Call.processTx rr) rfl] at hbS ⊢
          rw [countConnAdds_cons_false (Call.processTx rr) rfl] at hbC ⊢
          rw [shapeIdsOf_cons_skip (Call.processTx rr) rfl,
            connIdsOf_cons_skip (Call.processTx rr) rfl, ← e1, ← e2]
          exact run_ids oracle cs _ st2 rs0 hrun2 (by rw [e1]; exact hbS)
            (by rw [e2]; exact hbC)
        | query rr id pts =>
          simp only [step, Option.map_eq_some'] at hstep
          obtain ⟨x, hop, hxf⟩ := hstep
          simp only [Prod.mk.injEq] at hxf
          obtain ⟨hst1, hr⟩ := hxf
          subst hst1
          subst hr
          have e := avoid_router_get_route_points_state hop
          rw [countShapeAdds_cons_false (Call.query rr id pts) rfl] at hbS ⊢
          rw [countConnAdds_cons_false (Call.query rr id pts) rfl] at hbC ⊢
          rw [shapeIdsOf_cons_skip (Call.query rr id pts) rfl,
            connIdsOf_cons_skip (Call.query rr id pts) rfl, ← e]
          exact run_ids oracle cs _ st2 rs0 hrun2 (by rw [e]; exact hbS)
            (by rw [e]; exact hbC)

/-- C4: obstacle and connector handles are each issued from a single
process-wide monotone counter per entity kind, never reset by router
destruction: along any successful run from process start with at most
10^4 issuances per kind, the shape handles returned by addObstacle
calls are the consecutive values 1, 2, 3, ... in call order — so each
is nonzero and strictly greater than every same-kind handle returned
earlier in the process and is never reused even after deletion or
router destruction — and likewise for connector handles. -/
theorem handles_monotone_never_reused
    (oracle : AvoidPoint → AvoidPoint → List AvoidPoint)
    (cs : List Call) (st' : WState) (rs : List Ret)
    (hrun : run oracle initState cs = some (st', rs))
    (hS : countShapeAdds cs ≤ 10000) (hC : countConnAdds cs ≤ 10000) :
    shapeIdsOf cs rs = List.range' 1 (countShapeAdds cs) ∧
    connIdsOf cs rs = List.range' 1 (countConnAdds cs) ∧
    (shapeIdsOf cs rs).Pairwise (· < ·) ∧ 0 ∉ shapeIdsOf cs rs ∧
    (connIdsOf cs rs).Pairwise (· < ·) ∧ 0 ∉ connIdsOf cs rs := by
  have hbS : initState.g_next_shape_id + countShapeAdds cs < UINT_MOD := by
    show 1 + countShapeAdds cs < 4294967296
    omega
  have hbC : initState.g_next_connector_id + countConnAdds cs < UINT_MOD := by
    show 1 + countConnAdds cs < 4294967296
    omega
  obtain ⟨h1, h2⟩ := run_ids oracle cs initState st' rs hrun hbS hbC
  have h1' : shapeIdsOf cs rs = List.range' 1 (countShapeAdds cs) := h1
  have h2' : connIdsOf cs rs = List.range' 1 (countConnAdds cs) := h2
  refine ⟨h1', h2', ?_, ?_, ?_, ?_⟩
  · rw [h1']
    exact List.pairwise_lt_range' 1 (countShapeAdds cs)
  · rw [h1']
    intro hm
    have := List.mem_range'_1.mp hm
    omega
  · rw [h2']
    exact List.pairwise_lt_range' 1 (countConnAdds cs)
  · rw [h2']
    intro hm
    have := List.mem_range'_1.mp hm
    omega

/-- C4 witness: the eight-call scenario cs4 (create, add two obstacles,
delete one, destroy the router, create another router, add an obstacle
and a connector) returns shape handles 1, 2, 3 and connector handle 1,
strictly increasing per kind and all nonzero. -/
theorem handles_monotone_never_reused_witness :
    shapeIdsOf cs4 rs4 = List.range' 1 (countShapeAdds cs4) ∧
    connIdsOf cs4 rs4 = List.range' 1 (countConnAdds cs4) ∧
    (shapeIdsOf cs4 rs4).Pairwise (· < ·) ∧ 0 ∉ shapeIdsOf cs4 rs4 ∧
    (connIdsOf cs4 rs4).Pairwise (· < ·) ∧ 0 ∉ connIdsOf cs4 rs4 :=
  handles_monotone_never_reused oracle0 cs4 stC4 rs4 (by decide) (by decide)
    (by decide)

/-- Membership in an insert-or-replace result. -/
theorem mem_aset {α : Type} {m : List (Nat × α)} {k : Nat} {v : α}
    {pr : Nat × α} (h : pr ∈ aset m k v) : pr = (k, v) ∨ pr ∈ m := by
  induction m with
  | nil => simpa [aset] using h
  | cons hd tl ih =>
    obtain ⟨a, b⟩ := hd
    by_cases hka : k = a
    · subst hka
      simp only [aset, eq_self_iff_true, if_true, List.mem_cons] at h
      rcases h with h | h
      · exact Or.inl h
      · exact Or.inr (List.mem_cons_of_mem _ h)
    · simp only [aset, if_neg hka, List.mem_cons] at h
      rcases h with h | h
      · exact Or.inr (h ▸ List.mem_cons_self _ _)
      · rcases ih h with h' | h'
        · exact Or.inl h'
        · exact Or.inr (List.mem_cons_of_mem _ h')

/-- Lookup hit/miss through an insert-or-replace. -/
theorem isSome_afind?_aset_iff {α : Type} (m : List (Nat × α)) (k : Nat)
    (v : α) (x : Nat) :
    (afind? (aset m k v) x).isSome = true ↔
      (x = k ∨ (afind? m x).isSome = true) := by
  rw [afind?_aset]
  by_cases hx : x = k <;> simp [hx]

/-- Lookup hit/miss through an erase, given unique keys. -/
theorem isSome_afind?_aerase_iff {α : Type} {m : List (Nat × α)}
    (hn : keysNodup m) (k x : Nat) :
    (afind? (aerase m k) x).isSome = true ↔
      ((afind? m x).isSome = true ∧ x ≠ k) := by
  by_cases hx : x = k
  · subst hx
    simp [afind?_aerase_self hn]
  · rw [afind?_aerase_ne m hx]
    simp [hx]

/-- Insert-or-replace preserves key presence. -/
theorem isSome_afind?_aset_of_isSome {α : Type} {m : List (Nat × α)} {q : Nat}
    (h : (afind? m q).isSome = true) (k : Nat) (v : α) :
    (afind? (aset m k v) q).isSome = true := by
  rw [afind?_aset]
  by_cases hq : q = k <;> simp [hq, h]

/-- The inner map of a router after its outer entry was overwritten. -/
theorem getD_afind?_aset {α : Type} (m : List (Nat × α)) (h : Nat) (v : α)
    (d : α) : (afind? (aset m h v) h).getD d = v := by
  simp [afind?_aset]

/-- What a successful addShape on a non-null router does to the
registry: overwrites the router's inner shape map with the fresh entry,
leaves connectors alone, returns and bumps the shape counter, and keeps
every live engine live. -/
theorem add_shape_effect {st : WState} {h : Ptr} {rect : AvoidRectangle}
    {x : Nat × WState} (h0 : h ≠ 0)
    (hop : avoid_router_add_shape st h rect = some x) :
    x.2.g_shapes = aset st.g_shapes h
      (aset (innerShapes st h) st.g_next_shape_id st.nextPtr) ∧
    x.2.g_connectors = st.g_connectors ∧
    x.1 = st.g_next_shape_id ∧
    x.2.g_next_shape_id = (st.g_next_shape_id + 1) % UINT_MOD ∧
    x.2.g_next_connector_id = st.g_next_connector_id ∧
    (∀ q, (afind? st.engines q).isSome = true →
      (afind? x.2.engines q).isSome = true) := by
  unfold avoid_router_add_shape at hop
  rw [if_neg h0] at hop
  split at hop
  · simp at hop
  · cases hop
    refine ⟨rfl, rfl, rfl, rfl, rfl, ?_⟩
    intro q hq
    exact isSome_afind?_aset_of_isSome hq _ _

/-- What a successful addConn on a non-null router does to the
registry. -/
theorem add_connector_effect {st : WState} {h : Ptr} {a b : AvoidPoint}
    {x : Nat × WState} (h0 : h ≠ 0)
    (hop : avoid_router_add_connector st h a b = some x) :
    x.2.g_connectors = aset st.g_connectors h
      (aset (innerConns st h) st.g_next_connector_id st.nextPtr) ∧
    x.2.g_shapes = st.g_shapes ∧
    x.1 = st.g_next_connector_id ∧
    x.2.g_next_connector_id = (st.g_next_connector_id + 1) % UINT_MOD ∧
    x.2.g_next_shape_id = st.g_next_shape_id ∧
    (∀ q, (afind? st.engines q).isSome = true →
      (afind? x.2.engines q).isSome = true) := by
  unfold avoid_router_add_connector at hop
  rw [if_neg h0] at hop
  split at hop
  · simp at hop
  · cases hop
    refine ⟨rfl, rfl, rfl, rfl, rfl, ?_⟩
    intro q hq
    exact isSome_afind?_aset_of_isSome hq _ _

/-- What a returning deleteObstacle on a non-null router does: either
the two-level lookup missed and the state is untouched, or the entry
existed and exactly that inner-map entry is erased (plus the native
release), everything else staying as it was. -/
theorem delete_shape_effect {st : WState} {h : Ptr} {id : Nat} {st1 : WState}
    (h0 : h ≠ 0) (hop : avoid_router_delete_shape st h id = some st1) :
    (shapeResolvable st h id = false ∧ st1 = st) ∨
    (shapeResolvable st h id = true ∧
      st1.g_shapes = aset st.g_shapes h (aerase (innerShapes st h) id) ∧
      st1.g_connectors = st.g_connectors ∧
      st1.g_next_shape_id = st.g_next_shape_id ∧
      st1.g_next_connector_id = st.g_next_connector_id ∧
      (∀ q, (afind? st.engines q).isSome = true →
        (afind? st1.engines q).isSome = true)) := by
  unfold avoid_router_delete_shape at hop
  rw [if_neg h0] at hop
  split at hop
  next hfound =>
    cases hop
    left
    refine ⟨?_, rfl⟩
    unfold shapeResolvable innerShapes
    rw [hfound]
    rfl
  next inner hfound =>
    split at hop
    next hfound2 =>
      cases hop
      left
      refine ⟨?_, rfl⟩
      unfold shapeResolvable innerShapes
      rw [hfound]
      simp [hfound2]
    next p hfound2 =>
      split at hop
      next => simp at hop
      next obj hheap =>
        split at hop
        next => simp at hop
        next e heng =>
          cases hop
          right
          refine ⟨?_, ?_, rfl, rfl, rfl, ?_⟩
          · unfold shapeResolvable innerShapes
            rw [hfound]
            simp [hfound2]
          · unfold innerShapes
            rw [hfound]
            rfl
          · intro q hq
            exact isSome_afind?_aset_of_isSome hq _ _

/-- What a returning deleteConnector on a non-null router does. -/
theorem delete_connector_effect {st : WState} {h : Ptr} {id : Nat}
    {st1 : WState} (h0 : h ≠ 0)
    (hop : avoid_router_delete_connector st h id = some st1) :
    (connResolvable st h id = false ∧ st1 = st) ∨
    (connResolvable st h id = true ∧
      st1.g_connectors = aset st.g_connectors h (aerase (innerConns st h) id) ∧
      st1.g_shapes = st.g_shapes ∧
      st1.g_next_shape_id = st.g_next_shape_id ∧
      st1.g_next_connector_id = st.g_next_connector_id ∧
      (∀ q, (afind? st.engines q).isSome = true →
        (afind? st1.engines q).isSome = true)) := by
  unfold avoid_router_delete_connector at hop
  rw [if_neg h0] at hop
  split at hop
  next hfound =>
    cases hop
    left
    refine ⟨?_, rfl⟩
    unfold connResolvable innerConns
    rw [hfound]
    rfl
  next inner hfound =>
    split at hop
    next hfound2 =>
      cases hop
      left
      refine ⟨?_, rfl⟩
      unfold connResolvable innerConns
      rw [hfound]
      simp [hfound2]
    next p hfound2 =>
      split at hop
      next => simp at hop
      next obj hheap =>
        split at hop
        next => simp at hop
        next e heng =>
          cases hop
          right
          refine ⟨?_, ?_, rfl, rfl, rfl, ?_⟩
          · unfold connResolvable innerConns
            rw [hfound]
            simp [hfound2]
          · unfold innerConns
            rw [hfound]
            rfl
          · intro q hq
            exact isSome_afind?_aset_of_isSome hq _ _

/-- Cons step of countAddS. -/
theorem countAddS_cons (op : ROp) (ops : List ROp) :
    countAddS (op :: ops) =
      countAddS ops + (match op with | ROp.addS _ => 1 | _ => 0) := by
  unfold countAddS
  cases op <;> simp [List.filter_cons]

/-- Cons step of countAddC. -/
theorem countAddC_cons (op : ROp) (ops : List ROp) :
    countAddC (op :: ops) =
      countAddC ops + (match op with | ROp.addC _ _ => 1 | _ => 0) := by
  unfold countAddC
  cases op <;> simp [List.filter_cons]

/-- C5 (amended): for every sequence of addObstacle, deleteObstacle,
addConnector, deleteConnector operations on a live router during which
the unsigned id counters do not wrap (fewer than 2^32 issuances per
kind in the process lifetime; the counterexample shows the equation
fails at the wrap), the set of handles that resolve under the router
afterwards is exactly: the handles that resolved before, plus the
handles returned by the adds, minus the handles the deletes found and
removed — regardless of the interleaving of adds and deletes. -/
theorem registry_set_equation :
    ∀ (ops : List ROp) (st : WState) (h : Ptr) (st' : WState) (log : OpLog),
    h ≠ 0 →
    (afind? st.engines h).isSome = true →
    keysNodup (innerShapes st h) →
    keysNodup (innerConns st h) →
    (∀ pr ∈ innerShapes st h, pr.1 < st.g_next_shape_id) →
    (∀ pr ∈ innerConns st h, pr.1 < st.g_next_connector_id) →
    st.g_next_shape_id + countAddS ops < UINT_MOD →
    st.g_next_connector_id + countAddC ops < UINT_MOD →
    rrunLog st h ops = some (st', log) →
    (∀ x, shapeResolvable st' h x = true ↔
       ((shapeResolvable st h x = true ∨ x ∈ log.addedS) ∧ x ∉ log.removedS)) ∧
    (∀ x, connResolvable st' h x = true ↔
       ((connResolvable st h x = true ∨ x ∈ log.addedC) ∧ x ∉ log.removedC)) ∧
    (∀ x ∈ log.addedS, st.g_next_shape_id ≤ x) ∧
    (∀ x ∈ log.addedC, st.g_next_connector_id ≤ x)
  | [], st, h, st', log, _, _, _, _, _, _, _, _, hrun => by
    cases hrun
    refine ⟨?_, ?_, ?_, ?_⟩ <;> simp [emptyLog]
  | op :: ops, st, h, st', log, h0, hlive, hnS, hnC, hbS, hbC, hwS, hwC,
      hrun => by
    unfold rrunLog at hrun
    split at hrun
    next hstep => exact Option.noConfusion hrun
    next st1 hstep =>
      split at hrun
      next => exact Option.noConfusion hrun
      next st2 log1 hrec =>
        injection hrun with hpair
        injection hpair with hA hB
        subst hA
        cases op with
        | addS rect =>
          simp only [rstep] at hstep
          rw [Option.map_eq_some'] at hstep
          obtain ⟨x, hop, hx2⟩ := hstep
          subst hx2
          obtain ⟨hgs, hgc, hid, hcs, hcc, heng⟩ := add_shape_effect h0 hop
          rw [countAddS_cons] at hwS
          rw [countAddC_cons] at hwC
          have hwS' : st.g_next_shape_id + (countAddS ops + 1) < UINT_MOD := hwS
          have hwC' : st.g_next_connector_id + countAddC ops < UINT_MOD := hwC
          have hlog : log =
              { log1 with addedS := st.g_next_shape_id :: log1.addedS } :=
            hB.symm
          subst hlog
          have hlt : st.g_next_shape_id + 1 < UINT_MOD := by omega
          have hc1 : x.2.g_next_shape_id = st.g_next_shape_id + 1 := by
            rw [hcs, Nat.mod_eq_of_lt hlt]
          have hi1 : innerShapes x.2 h =
              aset (innerShapes st h) st.g_next_shape_id st.nextPtr := by
            unfold innerShapes
            rw [hgs]
            exact getD_afind?_aset _ _ _ _
          have hic : innerConns x.2 h = innerConns st h := by
            unfold innerConns
            rw [hgc]
          have hIH := registry_set_equation ops x.2 h st2 log1 h0
            (heng h hlive)
            (by rw [hi1]; exact keysNodup_aset hnS _ _)
            (by rw [hic]; exact hnC)
            (by
              rw [hi1, hc1]
              intro pr hpr
              rcases mem_aset hpr with h' | h'
              · rw [h']
                omega
              · exact Nat.lt_succ_of_lt (hbS pr h'))
            (by rw [hic, hcc]; exact hbC)
            (by rw [hc1]; omega)
            (by rw [hcc]; omega)
            hrec
          have hresx : ∀ x0, shapeResolvable x.2 h x0 = true ↔
              (x0 = st.g_next_shape_id ∨ shapeResolvable st h x0 = true) := by
            intro x0
            unfold shapeResolvable
            rw [hi1]
            exact isSome_afind?_aset_iff _ _ _ _
          have hconx : ∀ x0, connResolvable x.2 h x0 = connResolvable st h x0 := by
            intro x0
            unfold connResolvable
            rw [hic]
          refine ⟨?_, ?_, ?_, ?_⟩
          · intro x0
            rw [hIH.1 x0, hresx x0]
            simp only [List.mem_cons]
            tauto
          · intro x0
            rw [hIH.2.1 x0, hconx x0]
          · intro x0 hx0
            rcases List.mem_cons.mp hx0 with h' | h'
            · omega
            · have := hIH.2.2.1 x0 h'
              rw [hc1] at this
              omega
          · intro x0 hx0
            have := hIH.2.2.2 x0 hx0
            rw [hcc] at this
            exact this
        | delS id =>
          simp only [rstep] at hstep
          rw [countAddS_cons] at hwS
          rw [countAddC_cons] at hwC
          have hwS' : st.g_next_shape_id + countAddS ops < UINT_MOD := hwS
          have hwC' : st.g_next_connector_id + countAddC ops < UINT_MOD := hwC
          rcases delete_shape_effect h0 hstep with ⟨hres, hst1⟩ |
            ⟨hres, hgs, hgc, hcs, hcc, heng⟩
          · subst hst1
            simp only [hres, Bool.false_eq_true, if_false] at hB
            have hlog : log = log1 := hB.symm
            subst hlog
            exact registry_set_equation ops _ h st2 _ h0 hlive hnS hnC
              hbS hbC hwS' hwC' hrec
          · simp only [hres, if_true] at hB
            have hlog : log =
                { log1 with removedS := id :: log1.removedS } := hB.symm
            subst hlog
            have hidlt : id < st.g_next_shape_id := by
              unfold shapeResolvable at hres
              cases hq : afind? (innerShapes st h) id with
              | none => rw [hq] at hres; simp at hres
              | some p => exact hbS (id, p) (mem_of_afind?_eq_some hq)
            have hi1 : innerShapes st1 h = aerase (innerShapes st h) id := by
              unfold innerShapes
              rw [hgs]
              exact getD_afind?_aset _ _ _ _
            have hic : innerConns st1 h = innerConns st h := by
              unfold innerConns
              rw [hgc]
            have hIH := registry_set_equation ops st1 h st2 log1 h0
              (heng h hlive)
              (by rw [hi1]; exact keysNodup_aerase hnS _)
              (by rw [hic]; exact hnC)
              (by
                rw [hi1, hcs]
                intro pr hpr
                exact hbS pr ((aerase_sublist _ _).subset hpr))
              (by rw [hic, hcc]; exact hbC)
              (by rw [hcs]; exact hwS')
              (by rw [hcc]; exact hwC')
              hrec
            have hresx : ∀ x0, shapeResolvable st1 h x0 = true ↔
                (shapeResolvable st h x0 = true ∧ x0 ≠ id) := by
              intro x0
              unfold shapeResolvable
              rw [hi1]
              exact isSome_afind?_aerase_iff hnS id x0
            have hconx : ∀ x0, connResolvable st1 h x0 = connResolvable st h x0 := by
              intro x0
              unfold connResolvable
              rw [hic]
            refine ⟨?_, ?_, ?_, ?_⟩
            · intro x0
              have hBD : x0 ∈ log1.addedS → x0 ≠ id := by
                intro hmem
                have := hIH.2.2.1 x0 hmem
                rw [hcs] at this
                omega
              rw [hIH.1 x0, hresx x0]
              simp only [List.mem_cons, not_or]
              constructor
              · rintro ⟨hab, hr⟩
                rcases hab with ⟨ha, hne⟩ | hb
                · exact ⟨Or.inl ha, hne, hr⟩
                · exact ⟨Or.inr hb, hBD hb, hr⟩
              · rintro ⟨hab, hne, hr⟩
                rcases hab with ha | hb
                · exact ⟨Or.inl ⟨ha, hne⟩, hr⟩
                · exact ⟨Or.inr hb, hr⟩
            · intro x0
              rw [hIH.2.1 x0, hconx x0]
            · intro x0 hx0
              have := hIH.2.2.1 x0 hx0
              rw [hcs] at this
              exact this
            · intro x0 hx0
              have := hIH.2.2.2 x0 hx0
              rw [hcc] at this
              exact this
        | addC a b =>
          simp only [rstep] at hstep
          rw [Option.map_eq_some'] at hstep
          obtain ⟨x, hop, hx2⟩ := hstep
          subst hx2
          obtain ⟨hgc, hgs, hid, hcc, hcs, heng⟩ := add_connector_effect h0 hop
          rw [countAddS_cons] at hwS
          rw [countAddC_cons] at hwC
          have hwS' : st.g_next_shape_id + countAddS ops < UINT_MOD := hwS
          have hwC' : st.g_next_connector_id + (countAddC ops + 1) < UINT_MOD := hwC
          have hlog : log =
              { log1 with addedC := st.g_next_connector_id :: log1.addedC } :=
            hB.symm
          subst hlog
          have hlt : st.g_next_connector_id + 1 < UINT_MOD := by omega
          have hc1 : x.2.g_next_connector_id = st.g_next_connector_id + 1 := by
            rw [hcc, Nat.mod_eq_of_lt hlt]
          have hi1 : innerConns x.2 h =
              aset (innerConns st h) st.g_next_connector_id st.nextPtr := by
            unfold innerConns
            rw [hgc]
            exact getD_afind?_aset _ _ _ _
          have his : innerShapes x.2 h = innerShapes st h := by
            unfold innerShapes
            rw [hgs]
          have hIH := registry_set_equation ops x.2 h st2 log1 h0
            (heng h hlive)
            (by rw [his]; exact hnS)
            (by rw [hi1]; exact keysNodup_aset hnC _ _)
            (by rw [his, hcs]; exact hbS)
            (by
              rw [hi1, hc1]
              intro pr hpr
              rcases mem_aset hpr with h' | h'
              · rw [h']
                omega
              · exact Nat.lt_succ_of_lt (hbC pr h'))
            (by rw [hcs]; omega)
            (by rw [hc1]; omega)
            hrec
          have hresx : ∀ x0, connResolvable x.2 h x0 = true ↔
              (x0 = st.g_next_connector_id ∨ connResolvable st h x0 = true) := by
            intro x0
            unfold connResolvable
            rw [hi1]
            exact isSome_afind?_aset_iff _ _ _ _
          have hshx : ∀ x0, shapeResolvable x.2 h x0 = shapeResolvable st h x0 := by
            intro x0
            unfold shapeResolvable
            rw [his]
          refine ⟨?_, ?_, ?_, ?_⟩
          · intro x0
            rw [hIH.1 x0, hshx x0]
          · intro x0
            rw [hIH.2.1 x0, hresx x0]
            simp only [List.mem_cons]
            tauto
          · intro x0 hx0
            have := hIH.2.2.1 x0 hx0
            rw [hcs] at this
            exact this
          · intro x0 hx0
            rcases List.mem_cons.mp hx0 with h' | h'
            · omega
            · have := hIH.2.2.2 x0 h'
              rw [hc1] at this
              omega
        | delC id =>
          simp only [rstep] at hstep
          rw [countAddS_cons] at hwS
          rw [countAddC_cons] at hwC
          have hwS' : st.g_next_shape_id + countAddS ops < UINT_MOD := hwS
          have hwC' : st.g_next_connector_id + countAddC ops < UINT_MOD := hwC
          rcases delete_connector_effect h0 hstep with ⟨hres, hst1⟩ |
            ⟨hres, hgc, hgs, hcs, hcc, heng⟩
          · subst hst1
            simp only [hres, Bool.false_eq_true, if_false] at hB
            have hlog : log = log1 := hB.symm
            subst hlog
            exact registry_set_equation ops _ h st2 _ h0 hlive hnS hnC
              hbS hbC hwS' hwC' hrec
          · simp only [hres, if_true] at hB
            have hlog : log =
                { log1 with removedC := id :: log1.removedC } := hB.symm
            subst hlog
            have hidlt : id < st.g_next_connector_id := by
              unfold connResolvable at hres
              cases hq : afind? (innerConns st h) id with
              | none => rw [hq] at hres; simp at hres
              | some p => exact hbC (id, p) (mem_of_afind?_eq_some hq)
            have hi1 : innerConns st1 h = aerase (innerConns st h) id := by
              unfold innerConns
              rw [hgc]
              exact getD_afind?_aset _ _ _ _
            have his : innerShapes st1 h = innerShapes st h := by
              unfold innerShapes
              rw [hgs]
            have hIH := registry_set_equation ops st1 h st2 log1 h0
              (heng h hlive)
              (by rw [his]; exact hnS)
              (by rw [hi1]; exact keysNodup_aerase hnC _)
              (by rw [his, hcs]; exact hbS)
              (by
                rw [hi1, hcc]
                intro pr hpr
                exact hbC pr ((aerase_sublist _ _).subset hpr))
              (by rw [hcs]; exact hwS')
              (by rw [hcc]; exact hwC')
              hrec
            have hresx : ∀ x0, connResolvable st1 h x0 = true ↔
                (connResolvable st h x0 = true ∧ x0 ≠ id) := by
              intro x0
              unfold connResolvable
              rw [hi1]
              exact isSome_afind?_aerase_iff hnC id x0
            have hshx : ∀ x0, shapeResolvable st1 h x0 = shapeResolvable st h x0 := by
              intro x0
              unfold shapeResolvable
              rw [his]
            refine ⟨?_, ?_, ?_, ?_⟩
            · intro x0
              rw [hIH.1 x0, hshx x0]
            · intro x0
              have hBD : x0 ∈ log1.addedC → x0 ≠ id := by
                intro hmem
                have := hIH.2.2.2 x0 hmem
                rw [hcc] at this
                omega
              rw [hIH.2.1 x0, hresx x0]
              simp only [List.mem_cons, not_or]
              constructor
              · rintro ⟨hab, hr⟩
                rcases hab with ⟨ha, hne⟩ | hb
                · exact ⟨Or.inl ha, hne, hr⟩
                · exact ⟨Or.inr hb, hBD hb, hr⟩
              · rintro ⟨hab, hne, hr⟩
                rcases hab with ha | hb
                · exact ⟨Or.inl ⟨ha, hne⟩, hr⟩
                · exact ⟨Or.inr hb, hr⟩
            · intro x0 hx0
              have := hIH.2.2.1 x0 hx0
              rw [hcs] at this
              exact this
            · intro x0 hx0
              have := hIH.2.2.2 x0 hx0
              rw [hcc] at this
              exact this

/-- C5 witness: after running ops5 (add a shape, delete shape 1, try to
delete unknown connector 7, add a connector) on the demo router, handle
1 no longer resolves: it resolved before and was not re-added, and the
delete removed it. -/
theorem registry_set_equation_witness :
    shapeResolvable st5 1 1 = true ↔
      ((shapeResolvable stDemo 1 1 = true ∨ 1 ∈ log5.addedS) ∧
        1 ∉ log5.removedS) :=
  (registry_set_equation ops5 stDemo 1 st5 log5 (by decide) (by decide)
    (by decide) (by decide) (by decide) (by decide) (by decide) (by decide)
    (by decide)).1 1

/-- C5 counterexample: in a state whose shape counter is one issuance
away from the unsigned wrap and where handle 5 is still registered,
deleting handle 5 and then adding seven obstacles wraps the counter
past 0 and re-issues handle 5, which therefore resolves after the
sequence even though it is in the deleted set (and the claimed equation
"resolvable = added minus deleted" says it must not resolve). -/
theorem registry_set_equation_counterexample :
    rrunLog stWrap 1 opsWrap = some resWrap ∧
    shapeResolvable resWrap.1 1 5 = true ∧
    5 ∈ resWrap.2.addedS ∧ 5 ∈ resWrap.2.removedS ∧
    shapeResolvable stWrap 1 5 = true :=
  ⟨by decide, by decide, by decide, by decide, by decide⟩
